import Mathlib

/-!
# ses-exporter: the latest-point selection and the gauges of `Collect`

A shallow embedding of `collector/collector.go`.

* Go pointers (`*time.Time`, `*int64`, `*float64`, `*ses.SendDataPoint`) are
  `Option`s; dereferencing `none` is the runtime panic `nilDereference`.
* Slices are lists; an index outside `0 ≤ i < len` is the runtime panic
  `indexOutOfRange`.  Indices are `Int`, as Go's `int` may be negative
  (`len(s) - 1` on an empty slice).
* A `time.Time` is the instant it denotes (an `Int`), `Before` is `<`.
* `float64` values are an abstract type `F`; the conversion `float64(int64)`
  is a parameter `float64 : Int → F`.
* `sort.Sort` is standard-library code whose algorithm depends on the
  toolchain.  It is a parameter: a program that sees the data only through
  `Len`, `Less` and `Swap` (`SortProg`), together with the documented contract
  `SortContract`.  `insertionSort`, the library's routine for short slices,
  is shown to meet the contract.
* A channel send appends to the list of emitted values; `log.Fatalf` ends the
  process (`Outcome.fatal`).
-/

namespace Collector

/-! ## Runtime failures -/

/-- Go runtime panics that `Collect` can raise. -/
inductive Panic where
  | indexOutOfRange
  | nilDereference
  | inconsistentCardinality
  deriving DecidableEq, Repr

/-- Slice indexing `s[i]` with Go's bounds check. -/
def index {α : Type} (s : List α) (i : Int) : Except Panic α :=
  if 0 ≤ i then
    match s.get? i.toNat with
    | some a => .ok a
    | none => .error .indexOutOfRange
  else .error .indexOutOfRange

/-- Pointer dereference `*p`. -/
def deref {α : Type} : Option α → Except Panic α
  | some a => .ok a
  | none => .error .nilDereference

/-! ## Data model (aws-sdk-go `ses` types, fields used by the collector) -/

/-- The type `ses.SendDataPoint`: every field is a pointer. -/
structure SendDataPoint where
  Timestamp : Option Int
  Bounces : Option Int
  Complaints : Option Int
  DeliveryAttempts : Option Int
  Rejects : Option Int
  deriving DecidableEq, Repr

/-- The type `ses.GetSendStatisticsOutput`. -/
structure GetSendStatisticsOutput where
  SendDataPoints : List (Option SendDataPoint)
  deriving DecidableEq, Repr

/-- The type `ses.GetSendQuotaOutput`. -/
structure GetSendQuotaOutput (F : Type) where
  Max24HourSend : Option F
  MaxSendRate : Option F
  SentLast24Hours : Option F
  deriving DecidableEq, Repr

/-- An `error` returned by a remote call: either one that satisfies
`awserr.Error` (it has a code) or any other error. -/
inductive RemoteError where
  | awserr (code : String) (message : String)
  | other (text : String)
  deriving DecidableEq, Repr

/-- The type assertion `err.(awserr.Error)`; the result is the code that
`aerr.Code()` returns. -/
def RemoteError.asAwsErr : RemoteError → Option String
  | .awserr code _ => some code
  | .other _ => none

/-! ## Prometheus descriptors and metrics -/

/-- The type `prometheus.Desc`, as far as `NewDesc` fills it here. -/
structure Desc where
  fqName : String
  help : String
  variableLabels : List String
  constLabels : List (String × String)
  deriving DecidableEq, Repr

/-- The function `prometheus.BuildFQName`: the non-empty parts joined by `_`. -/
def BuildFQName (ns subsystem name : String) : String :=
  if name = "" then ""
  else if ns ≠ "" ∧ subsystem ≠ "" then ns ++ "_" ++ subsystem ++ "_" ++ name
  else if ns ≠ "" then ns ++ "_" ++ name
  else if subsystem ≠ "" then subsystem ++ "_" ++ name
  else name

/-- The function `prometheus.NewDesc`. -/
def NewDesc (fqName help : String) (variableLabels : List String)
    (constLabels : List (String × String)) : Desc :=
  { fqName := fqName, help := help, variableLabels := variableLabels, constLabels := constLabels }

/-- The type `prometheus.ValueType`. -/
inductive ValueType where
  | CounterValue
  | GaugeValue
  | UntypedValue
  deriving DecidableEq, Repr

/-- A constant metric as built by `NewConstMetric`. -/
structure Metric (F : Type) where
  desc : Desc
  valType : ValueType
  value : F
  labelValues : List String
  deriving DecidableEq, Repr

/-- The function `prometheus.MustNewConstMetric`: it panics when the number of
label values differs from the number of variable labels of the descriptor. -/
def MustNewConstMetric {F : Type} (desc : Desc) (valueType : ValueType) (value : F)
    (labelValues : List String) : Except Panic (Metric F) :=
  if labelValues.length = desc.variableLabels.length then
    .ok { desc := desc, valType := valueType, value := value, labelValues := labelValues }
  else .error .inconsistentCardinality

/-! ## The exporter -/

/-- The constant `namespace`. -/
def namespaceName : String := "ses"

/-- The type `Exporter`. -/
structure Exporter where
  max24hoursend : Desc
  maxsendrate : Desc
  sentlast24hours : Desc
  Bounces : Desc
  Complaints : Desc
  DeliveryAttempts : Desc
  Rejects : Desc
  deriving DecidableEq, Repr

/-- The function `NewExporter`. -/
def NewExporter : Exporter :=
  { max24hoursend := NewDesc (BuildFQName namespaceName "" "max24hoursend")
      "The maximum number of emails allowed to be sent in a rolling 24 hours."
      ["aws_region"] []
    maxsendrate := NewDesc (BuildFQName namespaceName "" "maxsendrate")
      "The maximum rate of emails allowed to be sent per second."
      ["aws_region"] []
    sentlast24hours := NewDesc (BuildFQName namespaceName "" "sentlast24hours")
      "The number of emails sent in the last 24 hours."
      ["aws_region"] []
    Bounces := NewDesc (BuildFQName namespaceName "" "Bounces")
      "The number of emails of emails that have bounced."
      ["aws_region"] []
    Complaints := NewDesc (BuildFQName namespaceName "" "Complaints")
      "Number of unwanted emails that were rejected by recipients."
      ["aws_region"] []
    DeliveryAttempts := NewDesc (BuildFQName namespaceName "" "DeliveryAttempts")
      "Number of emails that have been sent."
      ["aws_region"] []
    Rejects := NewDesc (BuildFQName namespaceName "" "Rejects")
      "Number of emails rejected by Amazon SES."
      ["aws_region"] [] }

/-- The method `Exporter.Describe`: the descriptors sent on the channel, in order. -/
def Describe (e : Exporter) : List Desc :=
  [e.max24hoursend, e.maxsendrate, e.sentlast24hours, e.Bounces, e.Complaints,
   e.DeliveryAttempts, e.Rejects]

/-! ## `sortedDataPoint` and `sort.Interface` -/

/-- The type `sortedDataPoint`. -/
structure sortedDataPoint where
  Data : List (Option SendDataPoint)
  deriving DecidableEq, Repr

/-- The method `sortedDataPoint.Len`. -/
def sortedDataPoint.Len (sd : sortedDataPoint) : Nat :=
  sd.Data.length

/-- The method `sortedDataPoint.Less`:
`sd.Data[i].Timestamp.Before(*sd.Data[j].Timestamp)`.  `Before` has a value
receiver, so the receiver `*sd.Data[i].Timestamp` is loaded first, then the
argument `*sd.Data[j].Timestamp`. -/
def sortedDataPoint.Less (sd : sortedDataPoint) (i j : Int) : Except Panic Bool := do
  let pi ← index sd.Data i
  let di ← deref pi
  let ti ← deref di.Timestamp
  let pj ← index sd.Data j
  let dj ← deref pj
  let tj ← deref dj.Timestamp
  pure (decide (ti < tj))

/-- The method `sortedDataPoint.Swap`:
`sd.Data[i], sd.Data[j] = sd.Data[j], sd.Data[i]`. -/
def sortedDataPoint.Swap (sd : sortedDataPoint) (i j : Int) : Except Panic sortedDataPoint := do
  let vj ← index sd.Data j
  let vi ← index sd.Data i
  pure { Data := (sd.Data.set i.toNat vj).set j.toNat vi }

/-- The interface `sort.Interface` over a collection of type `σ`. -/
structure Interface (σ : Type) where
  Len : σ → Nat
  Less : σ → Int → Int → Except Panic Bool
  Swap : σ → Int → Int → Except Panic σ

/-- The type `sortedDataPoint` implements `sort.Interface`. -/
def sortedDataPoint.iface : Interface sortedDataPoint :=
  { Len := sortedDataPoint.Len, Less := sortedDataPoint.Less, Swap := sortedDataPoint.Swap }

/-! ## `sort.Sort` as a program over the interface -/

/-- A sorting run seen from the interface: the calls it makes to `Less` and
`Swap`, each next call chosen from the answers so far. -/
inductive SortProg where
  | done : SortProg
  | less (i j : Int) (k : Bool → SortProg) : SortProg
  | swap (i j : Int) (k : SortProg) : SortProg

/-- One call made on the interface during a sort. -/
inductive SortCall where
  | less (i j : Int)
  | swap (i j : Int)
  deriving DecidableEq, Repr

/-- What a sort leaves behind: the collection, the calls made in order, and the
panic that stopped it, if any. -/
structure SortRun (σ : Type) where
  state : σ
  calls : List SortCall
  failure : Option Panic
  deriving DecidableEq, Repr

/-- Prefix the calls of a run with earlier calls. -/
def SortRun.after {σ : Type} (cs : List SortCall) (r : SortRun σ) : SortRun σ :=
  { r with calls := cs ++ r.calls }

/-- Run a sorting program against an implementation of the interface. -/
def SortProg.run {σ : Type} (I : Interface σ) : SortProg → σ → SortRun σ
  | .done, s => { state := s, calls := [], failure := none }
  | .less i j k, s =>
    match I.Less s i j with
    | .error p => { state := s, calls := [.less i j], failure := some p }
    | .ok b => ((k b).run I s).after [.less i j]
  | .swap i j k, s =>
    match I.Swap s i j with
    | .error p => { state := s, calls := [.swap i j], failure := some p }
    | .ok s' => (k.run I s').after [.swap i j]

/-- The function `sort.Sort(data)`: one call to `data.Len`, then the calls of
the algorithm `algo` for that length. -/
def sortSort {σ : Type} (algo : Nat → SortProg) (I : Interface σ) (data : σ) : SortRun σ :=
  (algo (I.Len data)).run I data

/-- The inner loop of the library's `insertionSort`:
`for j := i; j > a && data.Less(j, j-1); j-- { data.Swap(j, j-1) }` with `a = 0`,
followed by `k`. -/
def insertionInner : Nat → SortProg → SortProg
  | 0, k => k
  | j + 1, k =>
    .less (j + 1 : Nat) (j : Nat) fun b =>
      if b then .swap (j + 1 : Nat) (j : Nat) (insertionInner j k) else k

/-- The outer loop of `insertionSort`: `for i := a + 1; i < b; i++`, here the
iterations `i, i + 1, ..., i + m - 1`. -/
def insertionOuter : Nat → Nat → SortProg
  | 0, _ => .done
  | m + 1, i => insertionInner i (insertionOuter m (i + 1))

/-- The library routine `insertionSort(data, 0, n)`. -/
def insertionSort (n : Nat) : SortProg :=
  insertionOuter (n - 1) 1

/-- The interface of a slice whose elements are compared by `lessElem`. -/
def listIface {α : Type} (lessElem : α → α → Except Panic Bool) : Interface (List α) :=
  { Len := fun s => s.length
    Less := fun s i j => do
      let a ← index s i
      let b ← index s j
      lessElem a b
    Swap := fun s i j => do
      let vj ← index s j
      let vi ← index s i
      pure ((s.set i.toNat vj).set j.toNat vi) }

/-- Comparison of keys by `<`. -/
def keyLess (a b : Int) : Except Panic Bool :=
  pure (decide (a < b))

/-- The interface of a slice of keys ordered by `<`, the reference against which
the contract of `sort.Sort` is stated. -/
def keyIface : Interface (List Int) :=
  listIface keyLess

/-- The documented contract of `sort.Sort`: on every slice of keys it returns
without a panic and leaves the keys in ascending order. -/
def SortContract (algo : Nat → SortProg) : Prop :=
  ∀ ks : List Int, (sortSort algo keyIface ks).failure = none ∧
    (sortSort algo keyIface ks).state.Sorted (· ≤ ·)

/-! ## Vocabulary of the statements -/

/-- The timestamp of a slice element, when the element and its field are present. -/
def timestampOf (p : Option SendDataPoint) : Option Int :=
  p.bind (·.Timestamp)

/-- The key of a slice element: its timestamp, `dflt` where it has none. -/
def keyOf (dflt : Int) (p : Option SendDataPoint) : Int :=
  (timestampOf p).getD dflt

/-- Both indices of a call lie within a slice of length `n`. -/
def SortCall.inBounds (n : Nat) : SortCall → Prop
  | .less i j => (0 ≤ i ∧ i < n) ∧ (0 ≤ j ∧ j < n)
  | .swap i j => (0 ≤ i ∧ i < n) ∧ (0 ≤ j ∧ j < n)

/-- Comparison by timestamp of slice elements tagged with the position they were
fetched at. -/
def tagLess (t u : Nat × Option SendDataPoint) : Except Panic Bool :=
  match timestampOf t.2, timestampOf u.2 with
  | some a, some b => .ok (decide (a < b))
  | _, _ => .error .nilDereference

/-- A key for a tagged element: its timestamp; where it has none, `v` for the
element fetched at position `k` and 0 for the others. -/
def tagKey (k : Nat) (v : Int) (t : Nat × Option SendDataPoint) : Int :=
  (timestampOf t.2).getD (if t.1 = k then v else 0)

/-! ## `Collect` -/

/-- What the SES client built for one scrape answers: the signing region of the
session, and the results of the two remote calls when they are made. -/
structure Fetch (F : Type) where
  SigningRegion : String
  GetSendStatistics : Except RemoteError GetSendStatisticsOutput
  GetSendQuota : Except RemoteError (GetSendQuotaOutput F)

/-- The remote calls of the SES client. -/
inductive RemoteCall where
  | GetSendStatistics
  | GetSendQuota
  deriving DecidableEq, Repr

/-- How a call of `Collect` ends: it returns, the process is ended by
`log.Fatalf` (with the arguments of the format), or it panics. -/
inductive Outcome where
  | returned
  | fatal (regionName : String) (err : RemoteError)
  | panicked (p : Panic)
  deriving DecidableEq, Repr

/-- Everything observable of one call of `Collect`: the exporter afterwards, the
remote calls made, the fetched slice as the call leaves it, the calls `sort.Sort`
made on it, the metrics sent on the channel in order, and how the call ended. -/
structure Scrape (F : Type) where
  exporter : Exporter
  calls : List RemoteCall
  data : List (Option SendDataPoint)
  sortCalls : List SortCall
  emitted : List (Metric F)
  outcome : Outcome

/-- The error branch of `Collect`: the type switch on `awserr.Error` and the
switch on the code, every arm of which calls `log.Fatalf` with the same format
and arguments. -/
def fatalOn (regionName : String) (err : RemoteError) : Outcome :=
  match err.asAwsErr with
  | some _code => .fatal regionName err
  | none => .fatal regionName err

/-- Lines 124 to 128 of `Collect`: wrap the fetched slice, `sort.Sort` it, take
the element at index `len - 1`. -/
def selectLatest (algo : Nat → SortProg) (points : List (Option SendDataPoint)) :
    SortRun sortedDataPoint × Except Panic (Option SendDataPoint) :=
  let sortedSendStatistics : sortedDataPoint := { Data := points }
  let r := sortSort algo sortedDataPoint.iface sortedSendStatistics
  match r.failure with
  | some p => (r, .error p)
  | none => (r, index r.state.Data ((r.state.Data.length : Int) - 1))

/-- The seven statements `ch <- prometheus.MustNewConstMetric(...)` of `Collect`,
each the value it sends or the panic raised while building it. -/
def gauges {F : Type} (float64 : Int → F) (e : Exporter) (regionName : String)
    (latestSendStatistics : Option SendDataPoint) (sendQuotaOutput : GetSendQuotaOutput F) :
    List (Except Panic (Metric F)) :=
  [ (do let v ← deref sendQuotaOutput.Max24HourSend
        MustNewConstMetric e.max24hoursend .GaugeValue v [regionName]),
    (do let v ← deref sendQuotaOutput.MaxSendRate
        MustNewConstMetric e.maxsendrate .GaugeValue v [regionName]),
    (do let v ← deref sendQuotaOutput.SentLast24Hours
        MustNewConstMetric e.sentlast24hours .GaugeValue v [regionName]),
    (do let d ← deref latestSendStatistics
        let n ← deref d.Bounces
        MustNewConstMetric e.Bounces .GaugeValue (float64 n) [regionName]),
    (do let d ← deref latestSendStatistics
        let n ← deref d.Complaints
        MustNewConstMetric e.Complaints .GaugeValue (float64 n) [regionName]),
    (do let d ← deref latestSendStatistics
        let n ← deref d.DeliveryAttempts
        MustNewConstMetric e.DeliveryAttempts .GaugeValue (float64 n) [regionName]),
    (do let d ← deref latestSendStatistics
        let n ← deref d.Rejects
        MustNewConstMetric e.Rejects .GaugeValue (float64 n) [regionName]) ]

/-- Execute send statements in order: the values sent, up to the first panic. -/
def sendAll {F : Type} : List (Except Panic (Metric F)) → List (Metric F) × Outcome
  | [] => ([], .returned)
  | .error p :: _ => ([], .panicked p)
  | .ok m :: rest => (m :: (sendAll rest).1, (sendAll rest).2)

/-- The method `Exporter.Collect`. -/
def Collect {F : Type} (float64 : Int → F) (algo : Nat → SortProg) (e : Exporter)
    (svc : Fetch F) : Scrape F :=
  let regionName := svc.SigningRegion
  match svc.GetSendStatistics with
  | .error err =>
    { exporter := e, calls := [.GetSendStatistics], data := [], sortCalls := [],
      emitted := [], outcome := fatalOn regionName err }
  | .ok sendStatisticsOutput =>
    match selectLatest algo sendStatisticsOutput.SendDataPoints with
    | (r, .error p) =>
      { exporter := e, calls := [.GetSendStatistics], data := r.state.Data,
        sortCalls := r.calls, emitted := [], outcome := .panicked p }
    | (r, .ok latestSendStatistics) =>
      match svc.GetSendQuota with
      | .error err =>
        { exporter := e, calls := [.GetSendStatistics, .GetSendQuota], data := r.state.Data,
          sortCalls := r.calls, emitted := [], outcome := fatalOn regionName err }
      | .ok sendQuotaOutput =>
        let sent := sendAll (gauges float64 e regionName latestSendStatistics sendQuotaOutput)
        { exporter := e, calls := [.GetSendStatistics, .GetSendQuota], data := r.state.Data,
          sortCalls := r.calls, emitted := sent.1, outcome := sent.2 }

/-- A process serving scrapes one after the other with the exporter the previous
one left: the observations of each scrape that takes place.  A scrape that does
not return ends the process. -/
def serve {F : Type} (float64 : Int → F) (algo : Nat → SortProg) (e : Exporter) :
    List (Fetch F) → List (Scrape F)
  | [] => []
  | svc :: rest =>
    let s := Collect float64 algo e svc
    match s.outcome with
    | .returned => s :: serve float64 algo s.exporter rest
    | _ => [s]

/-! ## Preconditions and sample inputs -/

/-- The element is present and so are its four counts. -/
def hasCounts : Option SendDataPoint → Bool
  | some d => d.Bounces.isSome && d.Complaints.isSome && d.DeliveryAttempts.isSome &&
      d.Rejects.isSome
  | none => false

/-- The three fields of the quota output are present. -/
def quotaPresent {F : Type} (q : GetSendQuotaOutput F) : Bool :=
  q.Max24HourSend.isSome && q.MaxSendRate.isSome && q.SentLast24Hours.isSome

/-- The call `svc.GetSendStatistics` of the scrape `s` was made and returned `r`. -/
def statisticsReturned {F : Type} (svc : Fetch F) (s : Scrape F)
    (r : Except RemoteError GetSendStatisticsOutput) : Prop :=
  RemoteCall.GetSendStatistics ∈ s.calls ∧ svc.GetSendStatistics = r

/-- The call `svc.GetSendQuota` of the scrape `s` was made and returned `r`. -/
def quotaReturned {F : Type} (svc : Fetch F) (s : Scrape F)
    (r : Except RemoteError (GetSendQuotaOutput F)) : Prop :=
  RemoteCall.GetSendQuota ∈ s.calls ∧ svc.GetSendQuota = r

/-- The conversion `float64(n)` on the integers a `float64` represents exactly,
with rationals for the floats. -/
def exactFloat64 (n : Int) : Rat :=
  n

/-- A data point with all fields present. -/
def point (t bounces complaints deliveryAttempts rejects : Int) : Option SendDataPoint :=
  some { Timestamp := some t, Bounces := some bounces, Complaints := some complaints,
         DeliveryAttempts := some deliveryAttempts, Rejects := some rejects }

/-- The quota snapshot `{50000, 14, 123}`. -/
def sampleQuota : GetSendQuotaOutput Rat :=
  { Max24HourSend := some 50000, MaxSendRate := some 14, SentLast24Hours := some 123 }

/-- A fetch in region `eu-west-1` in which both calls succeed, with the sample
quota and the given statistics series. -/
def sampleFetch (points : List (Option SendDataPoint)) : Fetch Rat :=
  { SigningRegion := "eu-west-1"
    GetSendStatistics := .ok { SendDataPoints := points }
    GetSendQuota := .ok sampleQuota }

/-- The series of the specification: a point at 10:00 and a point at 10:05
(instants in minutes of the day). -/
def sampleSeries : List (Option SendDataPoint) :=
  [point 600 1 1 10 1, point 605 5 2 100 0]

/-- A fetch whose single data point has no `Bounces` count. -/
def fetchWithoutBounces : Fetch Rat :=
  sampleFetch [some { Timestamp := some 600, Bounces := none, Complaints := some 2,
                      DeliveryAttempts := some 100, Rejects := some 0 }]

/-- A fetch with the series of the specification whose quota output has no
`MaxSendRate`. -/
def fetchWithoutMaxSendRate : Fetch Rat :=
  { SigningRegion := "eu-west-1"
    GetSendStatistics := .ok { SendDataPoints := sampleSeries }
    GetSendQuota := .ok { Max24HourSend := some 50000, MaxSendRate := none,
                          SentLast24Hours := some 123 } }

/-- A fetch with the series of the specification whose quota output has no
`SentLast24Hours`. -/
def fetchWithoutSentLast24Hours : Fetch Rat :=
  { SigningRegion := "eu-west-1"
    GetSendStatistics := .ok { SendDataPoints := sampleSeries }
    GetSendQuota := .ok { Max24HourSend := some 50000, MaxSendRate := some 14,
                          SentLast24Hours := none } }

/-- A fetch whose older data point has none of its counts; the latest point is
the one of the specification. -/
def fetchOlderPointWithoutCounts : Fetch Rat :=
  sampleFetch [some { Timestamp := some 600, Bounces := none, Complaints := none,
                      DeliveryAttempts := none, Rejects := none },
    point 605 5 2 100 0]

/-- A fetch whose latest data point has no `Complaints` count. -/
def fetchWithoutComplaints : Fetch Rat :=
  sampleFetch [point 600 1 1 10 1,
    some { Timestamp := some 605, Bounces := some 5, Complaints := none,
           DeliveryAttempts := some 100, Rejects := some 0 }]

/-- A fetch in which the statistics call succeeds with the series of the
specification and the quota call returns a structured error. -/
def fetchQuotaFails : Fetch Rat :=
  { SigningRegion := "eu-west-1"
    GetSendStatistics := .ok { SendDataPoints := sampleSeries }
    GetSendQuota := .error (.awserr "Throttling" "Rate exceeded") }

/-- A fetch in which the statistics call succeeds with an empty series. -/
def fetchEmptySeries : Fetch Rat :=
  sampleFetch []

/-- A fetch whose series of two points has one point without timestamp. -/
def fetchWithoutTimestamp : Fetch Rat :=
  sampleFetch [point 600 1 1 10 1,
    some { Timestamp := none, Bounces := some 5, Complaints := some 2,
           DeliveryAttempts := some 100, Rejects := some 0 }]

/-- A fetch with another series whose latest point is the one of the sample
series. -/
def fetchOtherSeries : Fetch Rat :=
  sampleFetch [point 605 5 2 100 0, point 30 7 7 7 7, point 45 8 8 8 8]

/-- The gauge that `Collect` sends for a descriptor, a value and a region. -/
def gauge {F : Type} (desc : Desc) (value : F) (regionName : String) : Metric F :=
  { desc := desc, valType := .GaugeValue, value := value, labelValues := [regionName] }

/-! ## Runs: simulation and invariants -/

@[simp] theorem SortRun.after_failure {σ : Type} (cs : List SortCall) (r : SortRun σ) :
    (r.after cs).failure = r.failure := rfl

@[simp] theorem SortRun.after_state {σ : Type} (cs : List SortCall) (r : SortRun σ) :
    (r.after cs).state = r.state := rfl

@[simp] theorem SortRun.after_calls {σ : Type} (cs : List SortCall) (r : SortRun σ) :
    (r.after cs).calls = cs ++ r.calls := rfl

theorem SortProg.run_done {σ : Type} (I : Interface σ) (s : σ) :
    SortProg.done.run I s = { state := s, calls := [], failure := none } := by
  rw [SortProg.run]

theorem SortProg.run_less_ok {σ : Type} {I : Interface σ} {s : σ} {i j : Int} {b : Bool}
    (k : Bool → SortProg) (h : I.Less s i j = .ok b) :
    (SortProg.less i j k).run I s = ((k b).run I s).after [.less i j] := by
  rw [SortProg.run, h]

theorem SortProg.run_less_error {σ : Type} {I : Interface σ} {s : σ} {i j : Int} {p : Panic}
    (k : Bool → SortProg) (h : I.Less s i j = .error p) :
    (SortProg.less i j k).run I s = { state := s, calls := [.less i j], failure := some p } := by
  rw [SortProg.run, h]

theorem SortProg.run_swap_ok {σ : Type} {I : Interface σ} {s s' : σ} {i j : Int}
    (k : SortProg) (h : I.Swap s i j = .ok s') :
    (SortProg.swap i j k).run I s = (k.run I s').after [.swap i j] := by
  rw [SortProg.run, h]

theorem SortProg.run_swap_error {σ : Type} {I : Interface σ} {s : σ} {i j : Int} {p : Panic}
    (k : SortProg) (h : I.Swap s i j = .error p) :
    (SortProg.swap i j k).run I s = { state := s, calls := [.swap i j], failure := some p } := by
  rw [SortProg.run, h]

/-- A run against `I` that does not fail is followed call by call by the run of
the same program against `J`, as long as `J` answers related collections the way
`I` does; the only way out is a failure of `J.Less` allowed by `Q`. -/
theorem SortProg.run_sim {σ τ : Type} (I : Interface σ) (J : Interface τ) (R : σ → τ → Prop)
    (Q : Panic → Prop)
    (hLess : ∀ s t i j b, R s t → I.Less s i j = .ok b →
      J.Less t i j = .ok b ∨ ∃ p, Q p ∧ J.Less t i j = .error p)
    (hSwap : ∀ s t i j s', R s t → I.Swap s i j = .ok s' →
      ∃ t', J.Swap t i j = .ok t' ∧ R s' t') :
    ∀ (prog : SortProg) (s : σ) (t : τ), R s t → (prog.run I s).failure = none →
      ((prog.run J t).failure = none ∧ (prog.run J t).calls = (prog.run I s).calls ∧
        R (prog.run I s).state (prog.run J t).state) ∨
      ∃ p, Q p ∧ (prog.run J t).failure = some p := by
  intro prog
  induction prog with
  | done =>
    intro s t hR _
    rw [SortProg.run_done, SortProg.run_done]
    exact Or.inl ⟨rfl, rfl, hR⟩
  | less i j k ih =>
    intro s t hR h
    cases hI : I.Less s i j with
    | error p => simp [SortProg.run_less_error k hI] at h
    | ok b =>
      rw [SortProg.run_less_ok k hI, SortRun.after_failure] at h
      rw [SortProg.run_less_ok k hI]
      rcases hLess s t i j b hR hI with hJ | ⟨p, hQ, hJ⟩
      · rw [SortProg.run_less_ok k hJ]
        rcases ih b s t hR h with ⟨h1, h2, h3⟩ | ⟨p, hQ, hp⟩
        · left
          simp only [SortRun.after_failure, SortRun.after_calls, SortRun.after_state]
          exact ⟨h1, by rw [h2], h3⟩
        · right
          exact ⟨p, hQ, by simpa using hp⟩
      · right
        exact ⟨p, hQ, by rw [SortProg.run_less_error k hJ]⟩
  | swap i j k ih =>
    intro s t hR h
    cases hI : I.Swap s i j with
    | error p => simp [SortProg.run_swap_error k hI] at h
    | ok s' =>
      rw [SortProg.run_swap_ok k hI, SortRun.after_failure] at h
      rw [SortProg.run_swap_ok k hI]
      obtain ⟨t', hJ, hR'⟩ := hSwap s t i j s' hR hI
      rw [SortProg.run_swap_ok k hJ]
      rcases ih s' t' hR' h with ⟨h1, h2, h3⟩ | ⟨p, hQ, hp⟩
      · left
        simp only [SortRun.after_failure, SortRun.after_calls, SortRun.after_state]
        exact ⟨h1, by rw [h2], h3⟩
      · right
        exact ⟨p, hQ, by simpa using hp⟩

/-- A property of the collection that every successful `Swap` keeps holds when the
run stops, and every call of a run that did not fail satisfies what successful
calls satisfy. -/
theorem SortProg.run_inv {σ : Type} (I : Interface σ) (P : σ → Prop) (good : SortCall → Prop)
    (hLess : ∀ s i j b, P s → I.Less s i j = .ok b → good (.less i j))
    (hSwap : ∀ s i j s', P s → I.Swap s i j = .ok s' → P s' ∧ good (.swap i j)) :
    ∀ (prog : SortProg) (s : σ), P s →
      P (prog.run I s).state ∧
      ((prog.run I s).failure = none → ∀ c ∈ (prog.run I s).calls, good c) := by
  intro prog
  induction prog with
  | done =>
    intro s hP
    rw [SortProg.run_done]
    exact ⟨hP, fun _ c hc => by simp at hc⟩
  | less i j k ih =>
    intro s hP
    cases hI : I.Less s i j with
    | error p => simp [SortProg.run_less_error k hI, hP]
    | ok b =>
      rw [SortProg.run_less_ok k hI]
      simp only [SortRun.after_failure, SortRun.after_calls, SortRun.after_state]
      refine ⟨(ih b s hP).1, fun h c hc => ?_⟩
      rcases List.mem_append.1 hc with hc | hc
      · rw [List.mem_singleton.1 hc]
        exact hLess s i j b hP hI
      · exact (ih b s hP).2 h c hc
  | swap i j k ih =>
    intro s hP
    cases hI : I.Swap s i j with
    | error p => simp [SortProg.run_swap_error k hI, hP]
    | ok s' =>
      rw [SortProg.run_swap_ok k hI]
      simp only [SortRun.after_failure, SortRun.after_calls, SortRun.after_state]
      obtain ⟨hP', hg⟩ := hSwap s i j s' hP hI
      refine ⟨(ih s' hP').1, fun h c hc => ?_⟩
      rcases List.mem_append.1 hc with hc | hc
      · rw [List.mem_singleton.1 hc]
        exact hg
      · exact (ih s' hP').2 h c hc

/-! ## Indexing and swapping -/

theorem index_eq_ok {α : Type} {s : List α} {i : Int} {a : α} :
    index s i = .ok a ↔ 0 ≤ i ∧ s[i.toNat]? = some a := by
  unfold index
  by_cases h : 0 ≤ i
  · simp only [h, if_true, true_and, List.get?_eq_getElem?]
    cases hs : s[i.toNat]? <;> simp
  · simp [h]

theorem index_eq_ok_lt {α : Type} {s : List α} {i : Int} {a : α} (h : index s i = .ok a) :
    0 ≤ i ∧ i < s.length := by
  obtain ⟨h0, h1⟩ := index_eq_ok.1 h
  obtain ⟨hlt, -⟩ := List.getElem?_eq_some.1 h1
  exact ⟨h0, by omega⟩

theorem index_error {α : Type} {s : List α} {i : Int} {p : Panic} (h : index s i = .error p) :
    p = .indexOutOfRange := by
  unfold index at h
  split at h
  · split at h
    · cases h
    · cases h; rfl
  · cases h; rfl

theorem index_natCast {α : Type} (s : List α) (n : Nat) (h : n < s.length) :
    index s (n : Int) = .ok s[n] := by
  rw [index_eq_ok]
  exact ⟨by omega, by simp [List.getElem?_eq_getElem h]⟩

theorem index_map {α β : Type} (f : α → β) (s : List α) (i : Int) :
    index (s.map f) i = (index s i).map f := by
  unfold index
  by_cases h : 0 ≤ i
  · simp only [h, if_true, List.get?_eq_getElem?, List.getElem?_map]
    cases s[i.toNat]? <;> rfl
  · simp [h]; rfl

/-- Replacing the element at `j` by the head and putting the old element in front
permutes the list. -/
theorem cons_set_perm {α : Type} (a c : α) :
    ∀ (l : List α) (j : Nat), l[j]? = some c → (c :: l.set j a).Perm (a :: l)
  | [], _, h => by simp at h
  | x :: t, 0, h => by
    simp only [List.getElem?_cons_zero, Option.some.injEq] at h
    subst h
    simpa using List.Perm.swap a x t
  | x :: t, j + 1, h => by
    simp only [List.getElem?_cons_succ] at h
    have ih := cons_set_perm a c t j h
    simp only [List.set_cons_succ]
    exact (List.Perm.swap x c _).trans ((ih.cons x).trans (List.Perm.swap a x t))

/-- Exchanging the elements at two positions permutes the list. -/
theorem set_set_perm {α : Type} (a c : α) :
    ∀ (l : List α) (i j : Nat), l[i]? = some a → l[j]? = some c →
      ((l.set i c).set j a).Perm l
  | [], _, _, h, _ => by simp at h
  | x :: t, 0, 0, hi, hj => by
    simp only [List.getElem?_cons_zero, Option.some.injEq] at hi hj
    subst hi
    simp
  | x :: t, 0, j + 1, hi, hj => by
    simp only [List.getElem?_cons_zero, Option.some.injEq, List.getElem?_cons_succ] at hi hj
    subst hi
    simpa using cons_set_perm x c t j hj
  | x :: t, i + 1, 0, hi, hj => by
    simp only [List.getElem?_cons_zero, Option.some.injEq, List.getElem?_cons_succ] at hi hj
    subst hj
    simpa using cons_set_perm x a t i hi
  | x :: t, i + 1, j + 1, hi, hj => by
    simp only [List.getElem?_cons_succ] at hi hj
    simpa using (set_set_perm a c t i j hi hj).cons x

/-! ## The interface of a list -/

theorem except_bind_eq_ok {ε α β : Type} {x : Except ε α} {f : α → Except ε β} {b : β} :
    (x >>= f) = .ok b ↔ ∃ a, x = .ok a ∧ f a = .ok b := by
  cases x with
  | error e => simp [bind, Except.bind]
  | ok a => simp [bind, Except.bind]

theorem deref_eq_ok {α : Type} {o : Option α} {a : α} : deref o = .ok a ↔ o = some a := by
  cases o <;> simp [deref]

theorem Less_eq_ok {sd : sortedDataPoint} {i j : Int} {b : Bool} :
    sd.Less i j = .ok b ↔ ∃ di dj ti tj, index sd.Data i = .ok (some di) ∧
      index sd.Data j = .ok (some dj) ∧ di.Timestamp = some ti ∧ dj.Timestamp = some tj ∧
      b = decide (ti < tj) := by
  unfold sortedDataPoint.Less
  constructor
  · intro h
    obtain ⟨pi, h1, ha⟩ := except_bind_eq_ok.1 h
    obtain ⟨di, h2, hb⟩ := except_bind_eq_ok.1 ha
    obtain ⟨ti, h6, hc⟩ := except_bind_eq_ok.1 hb
    obtain ⟨pj, h3, hd⟩ := except_bind_eq_ok.1 hc
    obtain ⟨dj, h4, he⟩ := except_bind_eq_ok.1 hd
    obtain ⟨tj, h5, hf⟩ := except_bind_eq_ok.1 he
    rw [deref_eq_ok] at h2 h4 h5 h6
    subst h2 h4
    simp only [pure, Except.pure, Except.ok.injEq] at hf
    exact ⟨_, _, _, _, h1, h3, h6, h5, hf.symm⟩
  · rintro ⟨di, dj, ti, tj, h1, h2, h3, h4, rfl⟩
    simp [h1, h2, h3, h4, deref, bind, Except.bind, pure, Except.pure]

theorem Swap_eq_ok {sd sd' : sortedDataPoint} {i j : Int} :
    sd.Swap i j = .ok sd' ↔ ∃ vi vj, index sd.Data i = .ok vi ∧ index sd.Data j = .ok vj ∧
      sd'.Data = (sd.Data.set i.toNat vj).set j.toNat vi := by
  unfold sortedDataPoint.Swap
  constructor
  · intro h
    obtain ⟨vj, h1, h⟩ := except_bind_eq_ok.1 h
    obtain ⟨vi, h2, h⟩ := except_bind_eq_ok.1 h
    simp only [pure, Except.pure, Except.ok.injEq] at h
    exact ⟨vi, vj, h2, h1, by rw [← h]⟩
  · rintro ⟨vi, vj, h1, h2, h3⟩
    cases sd'
    simp only at h3
    simp [h1, h2, h3, bind, Except.bind, pure, Except.pure]


theorem listIface_Less {α : Type} {lessElem : α → α → Except Panic Bool} {s : List α}
    {i j : Int} {a c : α} (hi : index s i = .ok a) (hj : index s j = .ok c) :
    (listIface lessElem).Less s i j = lessElem a c := by
  simp [listIface, hi, hj, bind, Except.bind]

theorem listIface_Swap {α : Type} {lessElem : α → α → Except Panic Bool} {s : List α}
    {i j : Int} {a c : α} (hi : index s i = .ok a) (hj : index s j = .ok c) :
    (listIface lessElem).Swap s i j = .ok ((s.set i.toNat c).set j.toNat a) := by
  simp [listIface, hi, hj, bind, Except.bind, pure, Except.pure]

theorem listIface_Less_eq_ok {α : Type} {lessElem : α → α → Except Panic Bool} {s : List α}
    {i j : Int} {b : Bool} :
    (listIface lessElem).Less s i j = .ok b ↔
      ∃ a c, index s i = .ok a ∧ index s j = .ok c ∧ lessElem a c = .ok b := by
  constructor
  · intro h
    obtain ⟨a, h1, ha⟩ := except_bind_eq_ok.1 h
    obtain ⟨c, h2, hc⟩ := except_bind_eq_ok.1 ha
    exact ⟨a, c, h1, h2, hc⟩
  · rintro ⟨a, c, h1, h2, h3⟩
    rw [listIface_Less h1 h2, h3]

theorem listIface_Swap_eq_ok {α : Type} {lessElem : α → α → Except Panic Bool} {s s' : List α}
    {i j : Int} :
    (listIface lessElem).Swap s i j = .ok s' ↔
      ∃ a c, index s i = .ok a ∧ index s j = .ok c ∧ s' = (s.set i.toNat c).set j.toNat a := by
  constructor
  · intro h
    obtain ⟨c, h1, hc⟩ := except_bind_eq_ok.1 h
    obtain ⟨a, h2, ha⟩ := except_bind_eq_ok.1 hc
    simp only [pure, Except.pure, Except.ok.injEq] at ha
    exact ⟨a, c, h2, h1, ha.symm⟩
  · rintro ⟨a, c, h1, h2, rfl⟩
    exact listIface_Swap h1 h2

/-! ## `insertionSort` meets the contract of `sort.Sort` -/

theorem index_append_mid {α : Type} (P : List α) (a : α) (T : List α) :
    index (P ++ a :: T) (P.length : Int) = .ok a := by
  rw [index_eq_ok]
  refine ⟨by omega, ?_⟩
  rw [Int.toNat_ofNat]
  induction P with
  | nil => simp
  | cons x P ih => simpa using ih

theorem index_append_mid_succ {α : Type} (P : List α) (a b : α) (T : List α) :
    index (P ++ a :: b :: T) ((P.length + 1 : Nat) : Int) = .ok b := by
  have := index_append_mid (P ++ [a]) b T
  simpa using this

theorem set_append_mid {α : Type} (P : List α) (a c : α) (T : List α) :
    (P ++ a :: T).set P.length c = P ++ c :: T := by
  induction P with
  | nil => rfl
  | cons x P ih => simp [ih]

theorem set_append_mid_succ {α : Type} (P : List α) (a b c : α) (T : List α) :
    (P ++ a :: b :: T).set (P.length + 1) c = P ++ a :: c :: T := by
  induction P with
  | nil => rfl
  | cons x P ih => simp [ih]

/-- The inner loop moves the element after a sorted prefix down to its place:
started on `P ++ x :: S ++ R` it continues with `k` on a slice whose first
`|P| + 1 + |S|` elements are sorted and whose rest is `R`. -/
theorem insertionInner_spec (k : SortProg) (x : Int) (R : List Int) :
    ∀ (j : Nat) (P S : List Int), P.length = j → (P ++ S).Sorted (· ≤ ·) → (∀ z ∈ S, x < z) →
      ∃ A cs, A.length = P.length + 1 + S.length ∧ A.Sorted (· ≤ ·) ∧
        (insertionInner j k).run keyIface (P ++ x :: S ++ R) =
          (k.run keyIface (A ++ R)).after cs := by
  intro j
  induction j with
  | zero =>
    intro P S hP hsort hx
    have hnil : P = [] := List.length_eq_zero.1 hP
    subst hnil
    refine ⟨x :: S, [], by simp; omega, ?_, ?_⟩
    · simp only [List.nil_append] at hsort
      exact List.sorted_cons.2 ⟨fun z hz => le_of_lt (hx z hz), hsort⟩
    · simp [insertionInner, SortRun.after]
  | succ j ih =>
    intro P S hP hsort hx
    obtain ⟨P', y, rfl⟩ : ∃ P' y, P = P' ++ [y] := by
      rcases List.eq_nil_or_concat P with h | ⟨L, b, h⟩
      · subst h; simp at hP
      · exact ⟨L, b, by simpa using h⟩
    have hlen : P'.length = j := by simpa using hP
    have hs : P' ++ [y] ++ x :: S ++ R = P' ++ y :: x :: (S ++ R) := by simp
    have h1 : index (P' ++ y :: x :: (S ++ R)) ((j + 1 : Nat) : Int) = .ok x := by
      rw [← hlen]; exact index_append_mid_succ P' y x (S ++ R)
    have h2 : index (P' ++ y :: x :: (S ++ R)) ((j : Nat) : Int) = .ok y := by
      rw [← hlen]; exact index_append_mid P' y (x :: (S ++ R))
    have hL : keyIface.Less (P' ++ y :: x :: (S ++ R)) ((j + 1 : Nat) : Int) ((j : Nat) : Int) =
        .ok (decide (x < y)) := by
      unfold keyIface
      rw [listIface_Less h1 h2]; rfl
    rw [hs, insertionInner, SortProg.run_less_ok _ hL]
    by_cases hxy : x < y
    · have hW : keyIface.Swap (P' ++ y :: x :: (S ++ R)) ((j + 1 : Nat) : Int) ((j : Nat) : Int) =
          .ok (P' ++ x :: (y :: S) ++ R) := by
        unfold keyIface
        rw [listIface_Swap h1 h2]
        simp only [Int.toNat_ofNat]
        rw [← hlen, set_append_mid_succ, set_append_mid]
        simp
      simp only [hxy, decide_True, if_true]
      rw [SortProg.run_swap_ok _ hW]
      obtain ⟨A, cs, hA, hAs, hrun⟩ := ih P' (y :: S) hlen (by simpa using hsort)
        (by
          intro z hz
          rcases List.mem_cons.1 hz with rfl | hz
          · exact hxy
          · exact hx z hz)
      refine ⟨A, [SortCall.less ((j + 1 : Nat) : Int) ((j : Nat) : Int)] ++
        ([SortCall.swap ((j + 1 : Nat) : Int) ((j : Nat) : Int)] ++ cs), ?_, hAs, ?_⟩
      · simp [hA]; omega
      · rw [hrun]
        simp [SortRun.after]
    · simp only [hxy, decide_False, Bool.false_eq_true, if_false]
      refine ⟨P' ++ [y] ++ x :: S, [SortCall.less ((j + 1 : Nat) : Int) ((j : Nat) : Int)],
        by simp; omega, ?_, by simp⟩
      have hyx : y ≤ x := not_lt.1 hxy
      have hsort' := hsort
      simp only [List.Sorted, List.append_assoc, List.pairwise_append, List.pairwise_cons,
        List.mem_append, List.mem_cons, List.mem_singleton] at hsort' ⊢
      obtain ⟨hP', ⟨hyS, hS⟩, hPS⟩ := hsort'
      refine ⟨hP', ⟨⟨by simp, by simp⟩, ⟨fun a ha => le_of_lt (hx a ha), hS.1⟩, ?_⟩, ?_⟩
      · intro a ha b hb
        have hay : a = y := by simpa using ha
        subst hay
        rcases hb with rfl | hb
        · exact hyx
        · exact hS.2 a (Or.inl rfl) b hb
      · intro a ha b hb
        have hay : a ≤ y := hPS a ha y (Or.inl (Or.inl rfl))
        rcases hb with (rfl | hb) | rfl | hb
        · exact hay
        · simp at hb
        · exact le_trans hay hyx
        · exact hPS a ha b (Or.inr hb)

/-- The outer loop extends the sorted prefix over the whole slice. -/
theorem insertionOuter_spec :
    ∀ (m i : Nat) (A R : List Int), A.length = i → R.length = m → A.Sorted (· ≤ ·) →
      ∃ B cs, B.Sorted (· ≤ ·) ∧
        (insertionOuter m i).run keyIface (A ++ R) = { state := B, calls := cs, failure := none } := by
  intro m
  induction m with
  | zero =>
    intro i A R _ hR hA
    have hnil : R = [] := List.length_eq_zero.1 hR
    subst hnil
    exact ⟨A, [], hA, by simp [insertionOuter, SortProg.run_done]⟩
  | succ m ih =>
    intro i A R hA hR hsort
    obtain ⟨x, R', rfl⟩ : ∃ x R', R = x :: R' := by
      cases R with
      | nil => simp at hR
      | cons x R' => exact ⟨x, R', rfl⟩
    obtain ⟨A', cs, hA', hs', hrun⟩ := insertionInner_spec (insertionOuter m (i + 1)) x R' i A []
      hA (by simpa using hsort) (by simp)
    obtain ⟨B, cs', hB, hrun'⟩ := ih (i + 1) A' R' (by simpa [hA] using hA') (by simpa using hR) hs'
    refine ⟨B, cs ++ cs', hB, ?_⟩
    have hrun0 : (insertionInner i (insertionOuter m (i + 1))).run keyIface (A ++ x :: R') =
        ((insertionOuter m (i + 1)).run keyIface (A' ++ R')).after cs := by
      simpa using hrun
    rw [insertionOuter, hrun0, hrun']
    rfl

/-- The library routine `insertionSort` sorts every slice of keys without a panic. -/
theorem insertionSort_contract : SortContract insertionSort := by
  intro ks
  cases ks with
  | nil =>
    refine ⟨?_, ?_⟩ <;> simp [sortSort, insertionSort, insertionOuter, SortProg.run_done, keyIface, listIface]
  | cons a R =>
    obtain ⟨B, cs, hB, hrun⟩ := insertionOuter_spec R.length 1 [a] R rfl rfl (by simp)
    have hrun0 : sortSort insertionSort keyIface (a :: R) =
        { state := B, calls := cs, failure := none } := by
      have : keyIface.Len (a :: R) = R.length + 1 := rfl
      rw [sortSort, this, insertionSort]
      simpa using hrun
    rw [hrun0]
    exact ⟨rfl, hB⟩

/-! ## Sorting data points against sorting their keys -/

theorem index_mem {α : Type} {s : List α} {i : Int} {a : α} (h : index s i = .ok a) : a ∈ s := by
  obtain ⟨-, h1⟩ := index_eq_ok.1 h
  exact List.getElem?_mem h1

theorem index_map_eq_ok {α β : Type} {f : α → β} {s : List α} {i : Int} {b : β}
    (h : index (s.map f) i = .ok b) : ∃ a, index s i = .ok a ∧ f a = b := by
  rw [index_map] at h
  cases hs : index s i with
  | error p => rw [hs] at h; cases h
  | ok a =>
    rw [hs] at h
    exact ⟨a, rfl, by simpa [Except.map] using h⟩

theorem index_map_of_ok {α β : Type} (f : α → β) {s : List α} {i : Int} {a : α}
    (h : index s i = .ok a) : index (s.map f) i = .ok (f a) := by
  rw [index_map, h]; rfl

theorem mem_set_set {α : Type} {l : List α} {i j : Nat} {a c x : α}
    (h : x ∈ (l.set i c).set j a) : x ∈ l ∨ x = a ∨ x = c := by
  rcases List.mem_or_eq_of_mem_set h with h | h
  · rcases List.mem_or_eq_of_mem_set h with h | h
    · exact Or.inl h
    · exact Or.inr (Or.inr h)
  · exact Or.inr (Or.inl h)

/-- Outcomes of `Less` on two elements of the slice: the comparison of their
timestamps, or a nil dereference when one has none. -/
theorem Less_of_index {sd : sortedDataPoint} {i j : Int} {pi pj : Option SendDataPoint}
    (hi : index sd.Data i = .ok pi) (hj : index sd.Data j = .ok pj) :
    (∃ ti tj, timestampOf pi = some ti ∧ timestampOf pj = some tj ∧
      sd.Less i j = .ok (decide (ti < tj))) ∨
    ((timestampOf pi = none ∨ timestampOf pj = none) ∧ sd.Less i j = .error .nilDereference) := by
  unfold sortedDataPoint.Less
  rw [hi, hj]
  cases pi with
  | none => right; exact ⟨Or.inl rfl, rfl⟩
  | some di =>
    cases hti : di.Timestamp with
    | none =>
      right
      exact ⟨Or.inl (by simp [timestampOf, hti]), by simp [deref, bind, Except.bind, hti]⟩
    | some ti =>
      cases pj with
      | none =>
        right
        exact ⟨Or.inr rfl, by simp [deref, bind, Except.bind, hti]⟩
      | some dj =>
        cases htj : dj.Timestamp with
        | none =>
          right
          exact ⟨Or.inr (by simp [timestampOf, htj]), by simp [deref, bind, Except.bind, hti, htj]⟩
        | some tj =>
          left
          exact ⟨ti, tj, by simp [timestampOf, hti], by simp [timestampOf, htj],
            by simp [deref, bind, Except.bind, hti, htj, pure, Except.pure]⟩

/-- The run of a sorting program on the data points follows its run on their keys:
if the keys are sorted without failure, so are the points, with the same calls,
unless `Less` meets an element without timestamp. -/
theorem run_keys_data (dflt : Int) (Pr : Option SendDataPoint → Prop) (Q : Panic → Prop)
    (hPQ : ∀ p, Pr p → timestampOf p = none → Q .nilDereference)
    (prog : SortProg) (sd : sortedDataPoint) (hPr : ∀ p ∈ sd.Data, Pr p)
    (h : (prog.run keyIface (sd.Data.map (keyOf dflt))).failure = none) :
    ((prog.run sortedDataPoint.iface sd).failure = none ∧
      (prog.run sortedDataPoint.iface sd).calls =
        (prog.run keyIface (sd.Data.map (keyOf dflt))).calls ∧
      (prog.run keyIface (sd.Data.map (keyOf dflt))).state =
        (prog.run sortedDataPoint.iface sd).state.Data.map (keyOf dflt) ∧
      ∀ p ∈ (prog.run sortedDataPoint.iface sd).state.Data, Pr p) ∨
    ∃ p, Q p ∧ (prog.run sortedDataPoint.iface sd).failure = some p := by
  have key := SortProg.run_sim keyIface sortedDataPoint.iface
    (fun ks sd => ks = sd.Data.map (keyOf dflt) ∧ ∀ p ∈ sd.Data, Pr p) Q ?_ ?_ prog
    (sd.Data.map (keyOf dflt)) sd ⟨rfl, hPr⟩ h
  · rcases key with ⟨h1, h2, h3, h4⟩ | h
    · exact Or.inl ⟨h1, h2, h3, h4⟩
    · exact Or.inr h
  · rintro ks sd i j b ⟨rfl, hP⟩ hL
    obtain ⟨a, c, ha, hc, hb⟩ := listIface_Less_eq_ok.1 hL
    obtain ⟨pi, hpi, rfl⟩ := index_map_eq_ok ha
    obtain ⟨pj, hpj, rfl⟩ := index_map_eq_ok hc
    rcases Less_of_index hpi hpj with ⟨ti, tj, hti, htj, hless⟩ | ⟨hnone, hless⟩
    · left
      change sd.Less i j = .ok b
      rw [hless]
      simp only [keyLess, keyOf, hti, htj, Option.getD_some, pure, Except.pure,
        Except.ok.injEq] at hb
      rw [hb]
    · right
      refine ⟨.nilDereference, ?_, hless⟩
      rcases hnone with hn | hn
      · exact hPQ pi (hP pi (index_mem hpi)) hn
      · exact hPQ pj (hP pj (index_mem hpj)) hn
  · rintro ks sd i j ks' ⟨rfl, hP⟩ hW
    obtain ⟨a, c, ha, hc, rfl⟩ := listIface_Swap_eq_ok.1 hW
    obtain ⟨pi, hpi, rfl⟩ := index_map_eq_ok ha
    obtain ⟨pj, hpj, rfl⟩ := index_map_eq_ok hc
    refine ⟨{ Data := (sd.Data.set i.toNat pj).set j.toNat pi }, ?_, ?_, ?_⟩
    · exact Swap_eq_ok.2 ⟨pi, pj, hpi, hpj, rfl⟩
    · simp [List.map_set]
    · intro p hp
      rcases mem_set_set hp with h | rfl | rfl
      · exact hP p h
      · exact hP p (index_mem hpi)
      · exact hP p (index_mem hpj)

/-- Whatever the program and however it ends, a run on the data points leaves a
permutation of the slice, and the calls of a run that did not fail are within
bounds. -/
theorem run_data_perm (prog : SortProg) (sd : sortedDataPoint) :
    (prog.run sortedDataPoint.iface sd).state.Data.Perm sd.Data ∧
    ((prog.run sortedDataPoint.iface sd).failure = none →
      ∀ c ∈ (prog.run sortedDataPoint.iface sd).calls, c.inBounds sd.Data.length) := by
  have := SortProg.run_inv sortedDataPoint.iface (fun s => s.Data.Perm sd.Data)
    (SortCall.inBounds sd.Data.length) ?_ ?_ prog sd (List.Perm.refl _)
  · exact this
  · intro s i j b hP hL
    obtain ⟨di, dj, ti, tj, hi, hj, -⟩ := Less_eq_ok.1 hL
    have hlen := hP.length_eq
    have h1 := index_eq_ok_lt hi
    have h2 := index_eq_ok_lt hj
    simp only [SortCall.inBounds]
    omega
  · intro s i j s' hP hW
    obtain ⟨vi, vj, hi, hj, hs'⟩ := Swap_eq_ok.1 hW
    have hlen := hP.length_eq
    have h1 := index_eq_ok_lt hi
    have h2 := index_eq_ok_lt hj
    refine ⟨?_, by simp only [SortCall.inBounds]; omega⟩
    show s'.Data.Perm sd.Data
    rw [hs']
    exact (set_set_perm vi vj s.Data i.toNat j.toNat (index_eq_ok.1 hi).2
      (index_eq_ok.1 hj).2).trans hP

/-! ## Selecting the latest point -/

theorem selectLatest_fst (algo : Nat → SortProg) (points : List (Option SendDataPoint)) :
    (selectLatest algo points).1 = sortSort algo sortedDataPoint.iface { Data := points } := by
  unfold selectLatest
  cases h : (sortSort algo sortedDataPoint.iface { Data := points }).failure <;> simp only [h]

theorem selectLatest_snd_of_none {algo : Nat → SortProg} {points : List (Option SendDataPoint)}
    (h : (sortSort algo sortedDataPoint.iface { Data := points }).failure = none) :
    (selectLatest algo points).2 =
      index (sortSort algo sortedDataPoint.iface { Data := points }).state.Data
        (((sortSort algo sortedDataPoint.iface { Data := points }).state.Data.length : Int) - 1) := by
  unfold selectLatest
  simp only [h]

theorem selectLatest_snd_of_some {algo : Nat → SortProg} {points : List (Option SendDataPoint)}
    {p : Panic} (h : (sortSort algo sortedDataPoint.iface { Data := points }).failure = some p) :
    (selectLatest algo points).2 = .error p := by
  unfold selectLatest
  simp only [h]

theorem sorted_getElem_le {K : List Int} (h : K.Sorted (· ≤ ·)) (i j : Nat) (hij : i ≤ j)
    (hj : j < K.length) : K[i] ≤ K[j] := by
  rcases Nat.eq_or_lt_of_le hij with rfl | hlt
  · exact le_refl _
  · exact List.pairwise_iff_getElem.1 h i j (by omega) hj hlt

/-- Under the contract of `sort.Sort`, on a non-empty slice whose elements all
have a timestamp, lines 124 to 128 succeed: the sort does not fail, makes only
calls within bounds, leaves a permutation of the slice, and the element taken
is an element of the slice whose timestamp no other exceeds. -/
theorem selectLatest_spec (algo : Nat → SortProg) (hs : SortContract algo)
    (points : List (Option SendDataPoint)) (hne : points ≠ [])
    (hts : ∀ p ∈ points, (timestampOf p).isSome) :
    ∃ latest, (selectLatest algo points).2 = .ok latest ∧
      (selectLatest algo points).1.failure = none ∧
      (selectLatest algo points).1.state.Data.Perm points ∧
      (∀ c ∈ (selectLatest algo points).1.calls, c.inBounds points.length) ∧
      latest ∈ points ∧ ∀ q ∈ points, keyOf 0 q ≤ keyOf 0 latest := by
  rw [selectLatest_fst]
  obtain ⟨hkf, hksorted⟩ := hs (points.map (keyOf 0))
  have hprog : sortSort algo keyIface (points.map (keyOf 0)) =
      (algo points.length).run keyIface (points.map (keyOf 0)) := by
    simp [sortSort, keyIface, listIface]
  have hprog' : sortSort algo sortedDataPoint.iface { Data := points } =
      (algo points.length).run sortedDataPoint.iface { Data := points } := rfl
  rw [hprog] at hkf hksorted
  have hsim := run_keys_data 0 (fun p => (timestampOf p).isSome) (fun _ => False)
    (by intro p hp hnone; simp [hnone] at hp)
    (algo points.length) { Data := points } hts hkf
  obtain ⟨hperm, hcalls⟩ := run_data_perm (algo points.length) { Data := points }
  rcases hsim with ⟨hf, -, hstate, -⟩ | ⟨p, hp, -⟩
  swap
  · exact hp.elim
  rw [← hprog'] at hf hstate hperm hcalls
  simp only at hstate
  rw [selectLatest_snd_of_none hf]
  set D := (sortSort algo sortedDataPoint.iface { Data := points }).state.Data with hD
  have hlen : D.length = points.length := hperm.length_eq
  have hpos : 0 < D.length := by
    rw [hlen]; exact List.length_pos.2 hne
  have hidx : index D ((D.length : Int) - 1) = .ok D[D.length - 1] := by
    have := index_natCast D (D.length - 1) (by omega)
    rw [← this]
    congr 1
    omega
  refine ⟨D[D.length - 1], hidx, hf, hperm, hcalls hf, ?_, ?_⟩
  · exact hperm.subset (List.getElem_mem _)
  · intro q hq
    have hqD : q ∈ D := hperm.symm.subset hq
    obtain ⟨i, hi, rfl⟩ := List.getElem_of_mem hqD
    have hK := hksorted
    rw [hstate] at hK
    have := sorted_getElem_le hK i (D.length - 1) (by omega) (by simp; omega)
    simpa using this

/-! ## A sort has to compare every element -/

theorem run_list_perm {α : Type} (lessElem : α → α → Except Panic Bool) (prog : SortProg)
    (s : List α) : (prog.run (listIface lessElem) s).state.Perm s := by
  have := SortProg.run_inv (listIface lessElem) (fun t => t.Perm s) (fun _ => True)
    (fun _ _ _ _ _ _ => trivial) ?_ prog s (List.Perm.refl _)
  · exact this.1
  · intro t i j t' hP hW
    obtain ⟨a, c, hi, hj, rfl⟩ := listIface_Swap_eq_ok.1 hW
    exact ⟨(set_set_perm a c t i.toNat j.toNat (index_eq_ok.1 hi).2 (index_eq_ok.1 hj).2).trans hP,
      trivial⟩

/-- A run on a list that does not fail is followed by the run on the image of the
list under `g`, when `g` keeps the answers of the comparison. -/
theorem run_list_map {α β : Type} (g : α → β) (lessA : α → α → Except Panic Bool)
    (lessB : β → β → Except Panic Bool)
    (hg : ∀ x y b, lessA x y = .ok b → lessB (g x) (g y) = .ok b)
    (prog : SortProg) (s : List α) (h : (prog.run (listIface lessA) s).failure = none) :
    (prog.run (listIface lessB) (s.map g)).failure = none ∧
    (prog.run (listIface lessB) (s.map g)).state = (prog.run (listIface lessA) s).state.map g := by
  have := SortProg.run_sim (listIface lessA) (listIface lessB) (fun s t => t = s.map g)
    (fun _ => False) ?_ ?_ prog s (s.map g) rfl h
  · rcases this with ⟨h1, -, h3⟩ | ⟨p, hp, -⟩
    · exact ⟨h1, h3⟩
    · exact hp.elim
  · rintro s t i j b rfl hL
    obtain ⟨a, c, ha, hc, hb⟩ := listIface_Less_eq_ok.1 hL
    left
    rw [listIface_Less (index_map_of_ok g ha) (index_map_of_ok g hc)]
    exact hg a c b hb
  · rintro s t i j s' rfl hW
    obtain ⟨a, c, ha, hc, rfl⟩ := listIface_Swap_eq_ok.1 hW
    refine ⟨_, listIface_Swap (index_map_of_ok g ha) (index_map_of_ok g hc), ?_⟩
    simp [List.map_set]

/-- A run on the data points that does not fail is followed by the run on the
points tagged with their positions. -/
theorem run_data_tagged (prog : SortProg) (T : List (Nat × Option SendDataPoint))
    (h : (prog.run sortedDataPoint.iface { Data := T.map Prod.snd }).failure = none) :
    (prog.run (listIface tagLess) T).failure = none := by
  have := SortProg.run_sim sortedDataPoint.iface (listIface tagLess)
    (fun sd T => sd.Data = T.map Prod.snd) (fun _ => False) ?_ ?_ prog
    { Data := T.map Prod.snd } T rfl h
  · rcases this with ⟨h1, -, -⟩ | ⟨p, hp, -⟩
    · exact h1
    · exact hp.elim
  · intro sd T i j b hR hL
    obtain ⟨di, dj, ti, tj, hi, hj, hti, htj, rfl⟩ := Less_eq_ok.1 hL
    rw [hR] at hi hj
    obtain ⟨t, ht, ht2⟩ := index_map_eq_ok hi
    obtain ⟨u, hu, hu2⟩ := index_map_eq_ok hj
    left
    rw [listIface_Less ht hu]
    simp [tagLess, timestampOf, ht2, hu2, hti, htj]
  · intro sd T i j sd' hR hW
    obtain ⟨vi, vj, hi, hj, hs'⟩ := Swap_eq_ok.1 hW
    rw [hR] at hi hj
    obtain ⟨t, ht, rfl⟩ := index_map_eq_ok hi
    obtain ⟨u, hu, rfl⟩ := index_map_eq_ok hj
    refine ⟨_, listIface_Swap ht hu, ?_⟩
    show sd'.Data = List.map Prod.snd ((T.set i.toNat u).set j.toNat t)
    rw [hs', hR]
    simp [List.map_set]

theorem tagLess_tagKey (k : Nat) (v : Int) (t u : Nat × Option SendDataPoint) (b : Bool)
    (h : tagLess t u = .ok b) : keyLess (tagKey k v t) (tagKey k v u) = .ok b := by
  unfold tagLess at h
  cases ht : timestampOf t.2 with
  | none => simp [ht] at h
  | some a =>
    cases hu : timestampOf u.2 with
    | none => simp [ht, hu] at h
    | some c =>
      simp only [ht, hu, Except.ok.injEq] at h
      simp [keyLess, tagKey, ht, hu, pure, Except.pure, h]

theorem exists_bound (l : List Int) : ∃ B : Int, 0 < B ∧ ∀ x ∈ l, -B < x ∧ x < B := by
  induction l with
  | nil => exact ⟨1, by norm_num, by simp⟩
  | cons a l ih =>
    obtain ⟨B, hB, h⟩ := ih
    refine ⟨B + |a| + 1, by have := abs_nonneg a; omega, ?_⟩
    intro x hx
    rcases List.mem_cons.1 hx with rfl | hx
    · have h1 := abs_nonneg x
      have h2 := le_abs_self x
      have h3 := neg_abs_le x
      constructor <;> omega
    · have := h x hx
      have h1 := abs_nonneg a
      constructor <;> omega

/-- No arrangement of two or more tagged elements is in ascending order for every
key given to an element without timestamp. -/
theorem not_sorted_for_all_keys (k : Nat) (T : List (Nat × Option SendDataPoint))
    (hnodup : (T.map Prod.fst).Nodup) (hlen : 2 ≤ T.length) (t₀ : Nat × Option SendDataPoint)
    (hmem : t₀ ∈ T) (hk : t₀.1 = k) (hnone : timestampOf t₀.2 = none)
    (hsorted : ∀ v : Int, (T.map (tagKey k v)).Sorted (· ≤ ·)) : False := by
  obtain ⟨B, hB, hbound⟩ := exists_bound (T.map (tagKey k 0))
  obtain ⟨p, hp, hpt⟩ := List.getElem_of_mem hmem
  have hinj := List.inj_on_of_nodup_map hnodup
  have hother : ∀ (q : Nat) (hq : q < T.length) (v : Int), q ≠ p →
      tagKey k v T[q] = tagKey k 0 T[q] := by
    intro q hq v hne
    have hne' : T[q].1 ≠ k := by
      intro h
      have heq : T[q] = t₀ := hinj (List.getElem_mem _) hmem (by rw [h, hk])
      have hnd : T.Nodup := List.Nodup.of_map _ hnodup
      have := (@List.Nodup.getElem_inj_iff _ T hnd q hq p hp).1 (by rw [heq, hpt])
      exact hne this
    simp [tagKey, hne']
  have hself : ∀ v : Int, tagKey k v T[p] = v := by
    intro v
    rw [hpt]
    simp [tagKey, hnone, hk]
  have hin : ∀ (q : Nat) (hq : q < T.length), -B < tagKey k 0 T[q] ∧ tagKey k 0 T[q] < B :=
    fun q hq => hbound _ (List.mem_map.2 ⟨T[q], List.getElem_mem _, rfl⟩)
  have hp0 : p = 0 := by
    by_contra hne
    have hs := sorted_getElem_le (hsorted (-B)) 0 p (by omega) (by simpa using hp)
    simp only [List.getElem_map] at hs
    rw [hself, hother 0 (by omega) (-B) (by omega)] at hs
    have := (hin 0 (by omega)).1
    omega
  have hpl : p = T.length - 1 := by
    by_contra hne
    have hs := sorted_getElem_le (hsorted B) p (T.length - 1) (by omega)
      (by simp; omega)
    simp only [List.getElem_map] at hs
    rw [hself, hother (T.length - 1) (by omega) B (by omega)] at hs
    have := (hin (T.length - 1) (by omega)).2
    omega
  omega

/-- Under the contract of `sort.Sort`, sorting a slice of two or more elements one
of which has no timestamp fails with a nil dereference. -/
theorem sort_fails_without_timestamp (algo : Nat → SortProg) (hs : SortContract algo)
    (points : List (Option SendDataPoint)) (hlen : 2 ≤ points.length)
    (p : Option SendDataPoint) (hp : p ∈ points) (hnone : timestampOf p = none) :
    (sortSort algo sortedDataPoint.iface { Data := points }).failure = some .nilDereference := by
  have hprog' : sortSort algo sortedDataPoint.iface { Data := points } =
      (algo points.length).run sortedDataPoint.iface { Data := points } := rfl
  have hkeys : ∀ ks : List Int, ks.length = points.length →
      ((algo points.length).run keyIface ks).failure = none ∧
      ((algo points.length).run keyIface ks).state.Sorted (· ≤ ·) := by
    intro ks hks
    have := hs ks
    have hprog : sortSort algo keyIface ks = (algo points.length).run keyIface ks := by
      rw [← hks]; rfl
    rwa [hprog] at this
  rw [hprog']
  have hsim := run_keys_data 0 (fun _ => True) (fun q => q = .nilDereference)
    (fun _ _ _ => rfl) (algo points.length) { Data := points } (fun _ _ => trivial)
    (hkeys _ (by simp)).1
  rcases hsim with ⟨hf, -, -, -⟩ | ⟨q, rfl, hq⟩
  swap
  · exact hq
  exfalso
  obtain ⟨k, hk, hkp⟩ := List.getElem_of_mem hp
  have htag := run_data_tagged (algo points.length) points.enum
    (by rw [List.enum_map_snd]; exact hf)
  have hperm := run_list_perm tagLess (algo points.length) points.enum
  refine not_sorted_for_all_keys k ((algo points.length).run (listIface tagLess) points.enum).state
    ?_ ?_ (k, p) ?_ rfl hnone ?_
  · rw [(hperm.map Prod.fst).nodup_iff, List.enum_map_fst]
    exact List.nodup_range _
  · rw [hperm.length_eq, List.enum_length]
    exact hlen
  · refine hperm.symm.subset ?_
    rw [List.mk_mem_enum_iff_getElem?, List.getElem?_eq_getElem hk, hkp]
  · intro v
    have hmap := run_list_map (tagKey k v) tagLess keyLess (tagLess_tagKey k v)
      (algo points.length) points.enum htag
    rw [← hmap.2]
    exact (hkeys _ (by simp)).2

/-- A run that fails records the failing call last, and the call fails on the
collection the run stopped with. -/
theorem SortProg.run_failure_call {σ : Type} (I : Interface σ) :
    ∀ (prog : SortProg) (s : σ) (p : Panic), (prog.run I s).failure = some p →
      (∃ i j, (prog.run I s).calls.getLast? = some (.less i j) ∧
        I.Less (prog.run I s).state i j = .error p) ∨
      (∃ i j, (prog.run I s).calls.getLast? = some (.swap i j) ∧
        I.Swap (prog.run I s).state i j = .error p) := by
  intro prog
  induction prog with
  | done =>
    intro s p h
    rw [SortProg.run_done] at h
    cases h
  | less i j k ih =>
    intro s p h
    cases hI : I.Less s i j with
    | error q =>
      rw [SortProg.run_less_error k hI] at h ⊢
      simp only [Option.some.injEq] at h
      subst h
      exact Or.inl ⟨i, j, rfl, hI⟩
    | ok b =>
      rw [SortProg.run_less_ok k hI] at h ⊢
      simp only [SortRun.after_failure] at h
      simp only [SortRun.after_calls, SortRun.after_state]
      rcases ih b s p h with ⟨i', j', h1, h2⟩ | ⟨i', j', h1, h2⟩
      · exact Or.inl ⟨i', j', by rw [List.singleton_append, List.getLast?_cons, h1]; rfl, h2⟩
      · exact Or.inr ⟨i', j', by rw [List.singleton_append, List.getLast?_cons, h1]; rfl, h2⟩
  | swap i j k ih =>
    intro s p h
    cases hI : I.Swap s i j with
    | error q =>
      rw [SortProg.run_swap_error k hI] at h ⊢
      simp only [Option.some.injEq] at h
      subst h
      exact Or.inr ⟨i, j, rfl, hI⟩
    | ok s' =>
      rw [SortProg.run_swap_ok k hI] at h ⊢
      simp only [SortRun.after_failure] at h
      simp only [SortRun.after_calls, SortRun.after_state]
      rcases ih s' p h with ⟨i', j', h1, h2⟩ | ⟨i', j', h1, h2⟩
      · exact Or.inl ⟨i', j', by rw [List.singleton_append, List.getLast?_cons, h1]; rfl, h2⟩
      · exact Or.inr ⟨i', j', by rw [List.singleton_append, List.getLast?_cons, h1]; rfl, h2⟩

theorem Swap_error {sd : sortedDataPoint} {i j : Int} {p : Panic} (h : sd.Swap i j = .error p) :
    p = .indexOutOfRange := by
  unfold sortedDataPoint.Swap at h
  cases hj : index sd.Data j with
  | error q =>
    rw [hj] at h
    simp only [bind, Except.bind, Except.error.injEq] at h
    rw [← h]; exact index_error hj
  | ok vj =>
    cases hi : index sd.Data i with
    | error q =>
      rw [hj, hi] at h
      simp only [bind, Except.bind, Except.error.injEq] at h
      rw [← h]; exact index_error hi
    | ok vi =>
      rw [hj, hi] at h
      simp [bind, Except.bind, pure, Except.pure] at h

/-- On the data points a nil dereference comes from `Less`: the failing call is
the last one recorded and it is a comparison. -/
theorem nilDereference_in_Less (prog : SortProg) (sd : sortedDataPoint)
    (h : (prog.run sortedDataPoint.iface sd).failure = some .nilDereference) :
    ∃ i j, (prog.run sortedDataPoint.iface sd).calls.getLast? = some (.less i j) ∧
      (prog.run sortedDataPoint.iface sd).state.Less i j = .error .nilDereference := by
  rcases SortProg.run_failure_call sortedDataPoint.iface prog sd _ h with
    ⟨i, j, h1, h2⟩ | ⟨i, j, -, h2⟩
  · exact ⟨i, j, h1, h2⟩
  · have := Swap_error h2
    cases this

/-! ## The branches of `Collect` -/

theorem Collect_statistics_error {F : Type} (float64 : Int → F) (algo : Nat → SortProg)
    (e : Exporter) (svc : Fetch F) (err : RemoteError)
    (h : svc.GetSendStatistics = .error err) :
    Collect float64 algo e svc =
      { exporter := e, calls := [.GetSendStatistics], data := [], sortCalls := [],
        emitted := [], outcome := fatalOn svc.SigningRegion err } := by
  unfold Collect
  simp only [h]

theorem Collect_select_error {F : Type} (float64 : Int → F) (algo : Nat → SortProg)
    (e : Exporter) (svc : Fetch F) (out : GetSendStatisticsOutput) (p : Panic)
    (h : svc.GetSendStatistics = .ok out)
    (hsel : (selectLatest algo out.SendDataPoints).2 = .error p) :
    Collect float64 algo e svc =
      { exporter := e, calls := [.GetSendStatistics],
        data := (selectLatest algo out.SendDataPoints).1.state.Data,
        sortCalls := (selectLatest algo out.SendDataPoints).1.calls,
        emitted := [], outcome := .panicked p } := by
  unfold Collect
  simp only [h]
  generalize selectLatest algo out.SendDataPoints = x at hsel ⊢
  obtain ⟨r, l⟩ := x
  simp only at hsel
  subst hsel
  rfl

theorem Collect_quota_error {F : Type} (float64 : Int → F) (algo : Nat → SortProg)
    (e : Exporter) (svc : Fetch F) (out : GetSendStatisticsOutput)
    (latest : Option SendDataPoint) (err : RemoteError)
    (h : svc.GetSendStatistics = .ok out)
    (hsel : (selectLatest algo out.SendDataPoints).2 = .ok latest)
    (hq : svc.GetSendQuota = .error err) :
    Collect float64 algo e svc =
      { exporter := e, calls := [.GetSendStatistics, .GetSendQuota],
        data := (selectLatest algo out.SendDataPoints).1.state.Data,
        sortCalls := (selectLatest algo out.SendDataPoints).1.calls,
        emitted := [], outcome := fatalOn svc.SigningRegion err } := by
  unfold Collect
  simp only [h]
  generalize selectLatest algo out.SendDataPoints = x at hsel ⊢
  obtain ⟨r, l⟩ := x
  simp only at hsel
  subst hsel
  simp only [hq]

theorem Collect_quota_ok {F : Type} (float64 : Int → F) (algo : Nat → SortProg)
    (e : Exporter) (svc : Fetch F) (out : GetSendStatisticsOutput)
    (latest : Option SendDataPoint) (q : GetSendQuotaOutput F)
    (h : svc.GetSendStatistics = .ok out)
    (hsel : (selectLatest algo out.SendDataPoints).2 = .ok latest)
    (hq : svc.GetSendQuota = .ok q) :
    Collect float64 algo e svc =
      { exporter := e, calls := [.GetSendStatistics, .GetSendQuota],
        data := (selectLatest algo out.SendDataPoints).1.state.Data,
        sortCalls := (selectLatest algo out.SendDataPoints).1.calls,
        emitted := (sendAll (gauges float64 e svc.SigningRegion latest q)).1,
        outcome := (sendAll (gauges float64 e svc.SigningRegion latest q)).2 } := by
  unfold Collect
  simp only [h]
  generalize selectLatest algo out.SendDataPoints = x at hsel ⊢
  obtain ⟨r, l⟩ := x
  simp only at hsel
  subst hsel
  simp only [hq]

theorem fatalOn_eq (regionName : String) (err : RemoteError) :
    fatalOn regionName err = .fatal regionName err := by
  unfold fatalOn
  cases err.asAwsErr <;> rfl

/-- The exporter is the same after `Collect`, however the call ends. -/
theorem Collect_exporter {F : Type} (float64 : Int → F) (algo : Nat → SortProg)
    (e : Exporter) (svc : Fetch F) : (Collect float64 algo e svc).exporter = e := by
  cases h : svc.GetSendStatistics with
  | error err => rw [Collect_statistics_error float64 algo e svc err h]
  | ok out =>
    cases hsel : (selectLatest algo out.SendDataPoints).2 with
    | error p => rw [Collect_select_error float64 algo e svc out p h hsel]
    | ok latest =>
      cases hq : svc.GetSendQuota with
      | error err => rw [Collect_quota_error float64 algo e svc out latest err h hsel hq]
      | ok q => rw [Collect_quota_ok float64 algo e svc out latest q h hsel hq]

/-- The quota call is made exactly when the statistics call succeeded and the
latest point was selected. -/
theorem quota_called_iff {F : Type} (float64 : Int → F) (algo : Nat → SortProg)
    (e : Exporter) (svc : Fetch F) :
    RemoteCall.GetSendQuota ∈ (Collect float64 algo e svc).calls ↔
      ∃ out latest, svc.GetSendStatistics = .ok out ∧
        (selectLatest algo out.SendDataPoints).2 = .ok latest := by
  cases h : svc.GetSendStatistics with
  | error err =>
    rw [Collect_statistics_error float64 algo e svc err h]
    simp
  | ok out =>
    cases hsel : (selectLatest algo out.SendDataPoints).2 with
    | error p =>
      rw [Collect_select_error float64 algo e svc out p h hsel]
      simp [hsel]
    | ok latest =>
      cases hq : svc.GetSendQuota with
      | error err =>
        rw [Collect_quota_error float64 algo e svc out latest err h hsel hq]
        simp [hsel]
      | ok q =>
        rw [Collect_quota_ok float64 algo e svc out latest q h hsel hq]
        simp [hsel]

/-- The statistics call is always the first call made. -/
theorem statistics_called {F : Type} (float64 : Int → F) (algo : Nat → SortProg)
    (e : Exporter) (svc : Fetch F) :
    RemoteCall.GetSendStatistics ∈ (Collect float64 algo e svc).calls := by
  cases h : svc.GetSendStatistics with
  | error err =>
    rw [Collect_statistics_error float64 algo e svc err h]
    simp
  | ok out =>
    cases hsel : (selectLatest algo out.SendDataPoints).2 with
    | error p =>
      rw [Collect_select_error float64 algo e svc out p h hsel]
      simp
    | ok latest =>
      cases hq : svc.GetSendQuota with
      | error err =>
        rw [Collect_quota_error float64 algo e svc out latest err h hsel hq]
        simp
      | ok q =>
        rw [Collect_quota_ok float64 algo e svc out latest q h hsel hq]
        simp

/-! ## The gauges sent -/

/-- With every dereferenced field present the seven send statements all send. -/
theorem sendAll_gauges_complete {F : Type} (float64 : Int → F) (regionName : String)
    (d : SendDataPoint) (a b c : F) (n1 n2 n3 n4 : Int)
    (h1 : d.Bounces = some n1) (h2 : d.Complaints = some n2)
    (h3 : d.DeliveryAttempts = some n3) (h4 : d.Rejects = some n4) :
    sendAll (gauges float64 NewExporter regionName (some d)
        { Max24HourSend := some a, MaxSendRate := some b, SentLast24Hours := some c }) =
      ([gauge NewExporter.max24hoursend a regionName,
        gauge NewExporter.maxsendrate b regionName,
        gauge NewExporter.sentlast24hours c regionName,
        gauge NewExporter.Bounces (float64 n1) regionName,
        gauge NewExporter.Complaints (float64 n2) regionName,
        gauge NewExporter.DeliveryAttempts (float64 n3) regionName,
        gauge NewExporter.Rejects (float64 n4) regionName], .returned) := by
  simp only [gauges, h1, h2, h3, h4, deref, bind, Except.bind]
  rfl

theorem sendAll_mem {F : Type} :
    ∀ (steps : List (Except Panic (Metric F))) (m : Metric F),
      m ∈ (sendAll steps).1 → Except.ok m ∈ steps
  | [], m, h => by simp [sendAll] at h
  | .error p :: rest, m, h => by simp [sendAll] at h
  | .ok m' :: rest, m, h => by
    simp only [sendAll, List.mem_cons] at h
    rcases h with rfl | h
    · exact List.mem_cons_self _ _
    · exact List.mem_cons_of_mem _ (sendAll_mem rest m h)

theorem MustNewConstMetric_desc {F : Type} {desc : Desc} {vt : ValueType} {v : F}
    {lvs : List String} {m : Metric F} (h : MustNewConstMetric desc vt v lvs = .ok m) :
    m.desc = desc := by
  unfold MustNewConstMetric at h
  split at h
  · simp only [Except.ok.injEq] at h
    rw [← h]
  · cases h

/-- A send statement for a count of the latest point sends on the descriptor it
names, if it sends. -/
theorem count_gauge_desc {F : Type} (float64 : Int → F) (desc : Desc) (regionName : String)
    (latest : Option SendDataPoint) (field : SendDataPoint → Option Int) (m : Metric F)
    (h : (do
      let d ← deref latest
      let n ← deref (field d)
      MustNewConstMetric desc .GaugeValue (float64 n) [regionName]) = Except.ok m) :
    m.desc = desc := by
  obtain ⟨d, -, h⟩ := except_bind_eq_ok.1 h
  obtain ⟨n, -, h⟩ := except_bind_eq_ok.1 h
  exact MustNewConstMetric_desc h

/-- With the three quota fields present the first three send statements send the
quota values, whatever happens to the four that follow; what those send is on
the descriptors of the counts. -/
theorem sendAll_gauges_quota {F : Type} (float64 : Int → F) (regionName : String)
    (latest : Option SendDataPoint) (a b c : F) :
    ∃ rest, (sendAll (gauges float64 NewExporter regionName latest
        { Max24HourSend := some a, MaxSendRate := some b, SentLast24Hours := some c })).1 =
      gauge NewExporter.max24hoursend a regionName ::
        gauge NewExporter.maxsendrate b regionName ::
        gauge NewExporter.sentlast24hours c regionName :: rest ∧
      ∀ m ∈ rest, m.desc ∈ [NewExporter.Bounces, NewExporter.Complaints,
        NewExporter.DeliveryAttempts, NewExporter.Rejects] := by
  refine ⟨(sendAll (List.drop 3 (gauges float64 NewExporter regionName latest
    { Max24HourSend := some a, MaxSendRate := some b, SentLast24Hours := some c }))).1, rfl, ?_⟩
  intro m hm
  have hmem := sendAll_mem _ m hm
  simp only [gauges, List.drop_succ_cons, List.drop_zero, List.mem_cons, List.mem_singleton,
    List.not_mem_nil, or_false] at hmem
  simp only [List.mem_cons, List.mem_singleton, List.not_mem_nil, or_false]
  rcases hmem with h | h | h | h
  · exact Or.inl (count_gauge_desc float64 _ regionName latest (·.Bounces) m h.symm)
  · exact Or.inr (Or.inl (count_gauge_desc float64 _ regionName latest (·.Complaints) m h.symm))
  · exact Or.inr (Or.inr (Or.inl
      (count_gauge_desc float64 _ regionName latest (·.DeliveryAttempts) m h.symm)))
  · exact Or.inr (Or.inr (Or.inr
      (count_gauge_desc float64 _ regionName latest (·.Rejects) m h.symm)))

/-- Whatever the sorting program, on an empty slice the selection fails with an
index out of range. -/
theorem selectLatest_nil (algo : Nat → SortProg) :
    (selectLatest algo []).2 = .error .indexOutOfRange ∧
    (selectLatest algo []).1.state.Data = [] := by
  have hrun : ∀ prog : SortProg,
      ((prog.run sortedDataPoint.iface { Data := [] }).failure = none ∨
        (prog.run sortedDataPoint.iface { Data := [] }).failure = some .indexOutOfRange) ∧
      (prog.run sortedDataPoint.iface { Data := [] }).state.Data = [] := by
    intro prog
    cases prog with
    | done => rw [SortProg.run_done]; exact ⟨Or.inl rfl, rfl⟩
    | less i j k =>
      have : sortedDataPoint.iface.Less { Data := [] } i j = .error .indexOutOfRange := by
        show sortedDataPoint.Less { Data := [] } i j = _
        unfold sortedDataPoint.Less index
        by_cases h : 0 ≤ i <;> simp [h, bind, Except.bind]
      rw [SortProg.run_less_error k this]
      exact ⟨Or.inr rfl, rfl⟩
    | swap i j k =>
      have : sortedDataPoint.iface.Swap { Data := [] } i j = .error .indexOutOfRange := by
        show sortedDataPoint.Swap { Data := [] } i j = _
        unfold sortedDataPoint.Swap index
        by_cases h : 0 ≤ j <;> simp [h, bind, Except.bind]
      rw [SortProg.run_swap_error k this]
      exact ⟨Or.inr rfl, rfl⟩
  have h := hrun (algo 0)
  have hprog : sortSort algo sortedDataPoint.iface { Data := [] } =
      (algo 0).run sortedDataPoint.iface { Data := [] } := rfl
  rw [selectLatest_fst, hprog]
  refine ⟨?_, h.2⟩
  rcases h.1 with hf | hf
  · rw [selectLatest_snd_of_none (by rw [hprog]; exact hf), hprog, h.2]
    rfl
  · exact selectLatest_snd_of_some (by rw [hprog]; exact hf)

/-! ## The successful scrape -/

theorem latest_timestamp_max (algo : Nat → SortProg) (hs : SortContract algo)
    (points : List (Option SendDataPoint)) (hne : points ≠ [])
    (hts : ∀ p ∈ points, (timestampOf p).isSome) :
    ∃ latest t, (selectLatest algo points).2 = .ok latest ∧ latest ∈ points ∧
      timestampOf latest = some t ∧
      ∀ q ∈ points, ∀ tq, timestampOf q = some tq → tq ≤ t := by
  obtain ⟨latest, hsel, -, -, -, hmem, hmax⟩ := selectLatest_spec algo hs points hne hts
  obtain ⟨t, ht⟩ := Option.isSome_iff_exists.1 (hts latest hmem)
  refine ⟨latest, t, hsel, hmem, ht, ?_⟩
  intro q hq tq htq
  have := hmax q hq
  simpa [keyOf, ht, htq] using this

/-- Under the contract of `sort.Sort`, when both calls succeed on a non-empty
series and every pointer `Collect` dereferences is present, the scrape returns
after sending the three quota values and the four counts of a point of the
series with the greatest timestamp. -/
theorem Collect_complete {F : Type} (float64 : Int → F) (algo : Nat → SortProg)
    (hs : SortContract algo) (svc : Fetch F) (out : GetSendStatisticsOutput)
    (q : GetSendQuotaOutput F) (h1 : svc.GetSendStatistics = .ok out)
    (h2 : svc.GetSendQuota = .ok q) (hne : out.SendDataPoints ≠ [])
    (hts : ∀ p ∈ out.SendDataPoints, (timestampOf p).isSome)
    (hcounts : ∀ p ∈ out.SendDataPoints, hasCounts p) (hq : quotaPresent q) :
    ∃ (d : SendDataPoint) (t : Int) (a b c : F) (n1 n2 n3 n4 : Int),
      some d ∈ out.SendDataPoints ∧ d.Timestamp = some t ∧
      (∀ p ∈ out.SendDataPoints, ∀ tp, timestampOf p = some tp → tp ≤ t) ∧
      q = { Max24HourSend := some a, MaxSendRate := some b, SentLast24Hours := some c } ∧
      d.Bounces = some n1 ∧ d.Complaints = some n2 ∧ d.DeliveryAttempts = some n3 ∧
      d.Rejects = some n4 ∧
      (Collect float64 algo NewExporter svc).emitted =
        [gauge NewExporter.max24hoursend a svc.SigningRegion,
         gauge NewExporter.maxsendrate b svc.SigningRegion,
         gauge NewExporter.sentlast24hours c svc.SigningRegion,
         gauge NewExporter.Bounces (float64 n1) svc.SigningRegion,
         gauge NewExporter.Complaints (float64 n2) svc.SigningRegion,
         gauge NewExporter.DeliveryAttempts (float64 n3) svc.SigningRegion,
         gauge NewExporter.Rejects (float64 n4) svc.SigningRegion] ∧
      (Collect float64 algo NewExporter svc).outcome = .returned ∧
      (Collect float64 algo NewExporter svc).calls = [.GetSendStatistics, .GetSendQuota] ∧
      (Collect float64 algo NewExporter svc).data.Perm out.SendDataPoints ∧
      ∀ c ∈ (Collect float64 algo NewExporter svc).sortCalls,
        c.inBounds out.SendDataPoints.length := by
  obtain ⟨latest, hsel, -, hperm, hcalls, hmem, -⟩ :=
    selectLatest_spec algo hs out.SendDataPoints hne hts
  obtain ⟨latest', t, hsel', -, ht, hmax⟩ :=
    latest_timestamp_max algo hs out.SendDataPoints hne hts
  have hl : latest' = latest := by
    rw [hsel] at hsel'
    simpa using hsel'.symm
  subst hl
  have hc := hcounts latest' hmem
  cases latest' with
  | none => simp [hasCounts] at hc
  | some d =>
    obtain ⟨a, b, c⟩ := q
    simp only [quotaPresent, Bool.and_eq_true, Option.isSome_iff_exists] at hq
    obtain ⟨⟨⟨a, rfl⟩, ⟨b, rfl⟩⟩, ⟨c, rfl⟩⟩ := hq
    simp only [hasCounts, Bool.and_eq_true, Option.isSome_iff_exists] at hc
    obtain ⟨⟨⟨⟨n1, hn1⟩, ⟨n2, hn2⟩⟩, ⟨n3, hn3⟩⟩, ⟨n4, hn4⟩⟩ := hc
    refine ⟨d, t, a, b, c, n1, n2, n3, n4, hmem, by simpa [timestampOf] using ht, hmax, rfl,
      hn1, hn2, hn3, hn4, ?_⟩
    rw [Collect_quota_ok float64 algo NewExporter svc out (some d) _ h1 hsel h2,
      sendAll_gauges_complete float64 svc.SigningRegion d a b c n1 n2 n3 n4 hn1 hn2 hn3 hn4]
    exact ⟨rfl, rfl, rfl, hperm, hcalls⟩

/-- The point taken as latest is an element of the fetched series, whatever the
sorting program. -/
theorem selected_mem (algo : Nat → SortProg) (points : List (Option SendDataPoint))
    (latest : Option SendDataPoint) (hsel : (selectLatest algo points).2 = .ok latest) :
    (sortSort algo sortedDataPoint.iface { Data := points }).failure = none ∧
    latest ∈ points := by
  cases hf : (sortSort algo sortedDataPoint.iface { Data := points }).failure with
  | some p =>
    rw [selectLatest_snd_of_some hf] at hsel
    cases hsel
  | none =>
    rw [selectLatest_snd_of_none hf] at hsel
    exact ⟨rfl, (run_data_perm (algo points.length) { Data := points }).1.subset
      (index_mem hsel)⟩

/-- Under the contract of `sort.Sort`, no point of the series has a timestamp
later than the one of the point taken as latest. -/
theorem selected_timestamp_max (algo : Nat → SortProg) (hs : SortContract algo)
    (points : List (Option SendDataPoint)) (latest : Option SendDataPoint)
    (hsel : (selectLatest algo points).2 = .ok latest) :
    ∀ p ∈ points, ∀ tp, timestampOf p = some tp →
      ∃ t, timestampOf latest = some t ∧ tp ≤ t := by
  obtain ⟨hf, hmem⟩ := selected_mem algo points latest hsel
  intro p hp tp htp
  by_cases hlen : 2 ≤ points.length
  · have hts : ∀ x ∈ points, (timestampOf x).isSome := by
      intro x hx
      by_contra hnone
      have hnone' : timestampOf x = none := by
        cases h : timestampOf x with
        | none => rfl
        | some v => simp [h] at hnone
      have := sort_fails_without_timestamp algo hs points hlen x hx hnone'
      rw [hf] at this
      cases this
    obtain ⟨latest', t, hsel', -, ht, hmax⟩ :=
      latest_timestamp_max algo hs points (List.ne_nil_of_mem hp) hts
    have hl : latest' = latest := by
      rw [hsel] at hsel'
      simpa using hsel'.symm
    subst hl
    exact ⟨t, ht, hmax p hp tp htp⟩
  · have hone : ∃ x, points = [x] := by
      cases points with
      | nil => cases hp
      | cons x rest =>
        cases rest with
        | nil => exact ⟨x, rfl⟩
        | cons y rest => simp at hlen
    obtain ⟨x, rfl⟩ := hone
    have hpx : p = x := by simpa using hp
    have hlx : latest = x := by simpa using hmem
    rw [hlx, ← hpx]
    exact ⟨tp, htp, le_refl _⟩

/-- When both calls succeed, a point is taken as latest that is present with its
four counts, and the three quota fields are present, the scrape returns after
sending the three quota values and the four counts of that point. -/
theorem Collect_selected {F : Type} (float64 : Int → F) (algo : Nat → SortProg)
    (svc : Fetch F) (out : GetSendStatisticsOutput) (q : GetSendQuotaOutput F)
    (latest : Option SendDataPoint) (h1 : svc.GetSendStatistics = .ok out)
    (h2 : svc.GetSendQuota = .ok q)
    (hsel : (selectLatest algo out.SendDataPoints).2 = .ok latest)
    (hcounts : hasCounts latest) (hq : quotaPresent q) :
    ∃ (d : SendDataPoint) (a b c : F) (n1 n2 n3 n4 : Int),
      latest = some d ∧
      q = { Max24HourSend := some a, MaxSendRate := some b, SentLast24Hours := some c } ∧
      d.Bounces = some n1 ∧ d.Complaints = some n2 ∧ d.DeliveryAttempts = some n3 ∧
      d.Rejects = some n4 ∧
      (Collect float64 algo NewExporter svc).emitted =
        [gauge NewExporter.max24hoursend a svc.SigningRegion,
         gauge NewExporter.maxsendrate b svc.SigningRegion,
         gauge NewExporter.sentlast24hours c svc.SigningRegion,
         gauge NewExporter.Bounces (float64 n1) svc.SigningRegion,
         gauge NewExporter.Complaints (float64 n2) svc.SigningRegion,
         gauge NewExporter.DeliveryAttempts (float64 n3) svc.SigningRegion,
         gauge NewExporter.Rejects (float64 n4) svc.SigningRegion] ∧
      (Collect float64 algo NewExporter svc).outcome = .returned ∧
      (Collect float64 algo NewExporter svc).calls = [.GetSendStatistics, .GetSendQuota] := by
  cases latest with
  | none => simp [hasCounts] at hcounts
  | some d =>
    obtain ⟨a, b, c⟩ := q
    simp only [quotaPresent, Bool.and_eq_true, Option.isSome_iff_exists] at hq
    obtain ⟨⟨⟨a, rfl⟩, ⟨b, rfl⟩⟩, ⟨c, rfl⟩⟩ := hq
    simp only [hasCounts, Bool.and_eq_true, Option.isSome_iff_exists] at hcounts
    obtain ⟨⟨⟨⟨n1, hn1⟩, ⟨n2, hn2⟩⟩, ⟨n3, hn3⟩⟩, ⟨n4, hn4⟩⟩ := hcounts
    refine ⟨d, a, b, c, n1, n2, n3, n4, rfl, rfl, hn1, hn2, hn3, hn4, ?_⟩
    rw [Collect_quota_ok float64 algo NewExporter svc out (some d) _ h1 hsel h2,
      sendAll_gauges_complete float64 svc.SigningRegion d a b c n1 n2 n3 n4 hn1 hn2 hn3 hn4]
    exact ⟨rfl, rfl, rfl⟩

/-- When both calls of a scrape are made and succeed, a point was taken as
latest. -/
theorem selected_of_returned {F : Type} (float64 : Int → F) (algo : Nat → SortProg)
    (e : Exporter) (svc : Fetch F) (out : GetSendStatisticsOutput) (q : GetSendQuotaOutput F)
    (h1 : statisticsReturned svc (Collect float64 algo e svc) (.ok out))
    (h2 : quotaReturned svc (Collect float64 algo e svc) (.ok q)) :
    ∃ latest, (selectLatest algo out.SendDataPoints).2 = .ok latest := by
  obtain ⟨out', latest, hstat, hsel⟩ := (quota_called_iff float64 algo e svc).1 h2.1
  have : out' = out := by
    have := hstat.symm.trans h1.2
    simpa using this
  subst this
  exact ⟨latest, hsel⟩

/-- The fully qualified names of the seven descriptors of `NewExporter`. -/
theorem describe_names :
    (Describe NewExporter).map (·.fqName) =
      ["ses_max24hoursend", "ses_maxsendrate", "ses_sentlast24hours", "ses_Bounces",
       "ses_Complaints", "ses_DeliveryAttempts", "ses_Rejects"] := by
  decide

/-- The descriptors of the counts are not descriptors of the quota values. -/
theorem count_desc_not_quota (d : Desc)
    (h : d ∈ [NewExporter.Bounces, NewExporter.Complaints, NewExporter.DeliveryAttempts,
      NewExporter.Rejects]) :
    d ∉ [NewExporter.max24hoursend, NewExporter.maxsendrate, NewExporter.sentlast24hours] := by
  simp only [List.mem_cons, List.mem_singleton, List.not_mem_nil, or_false] at h
  rcases h with rfl | rfl | rfl | rfl <;> decide

/-- When the quota call is made and returns its three values, `Collect` sends them
first, each on its descriptor with the region; whatever else it sends is not on a
descriptor of a quota value. -/
theorem quota_gauges {F : Type} (float64 : Int → F) (algo : Nat → SortProg)
    (svc : Fetch F) (a b c : F)
    (hret : quotaReturned svc (Collect float64 algo NewExporter svc)
      (.ok { Max24HourSend := some a, MaxSendRate := some b, SentLast24Hours := some c })) :
    ∃ rest, (Collect float64 algo NewExporter svc).emitted =
        gauge NewExporter.max24hoursend a svc.SigningRegion ::
        gauge NewExporter.maxsendrate b svc.SigningRegion ::
        gauge NewExporter.sentlast24hours c svc.SigningRegion :: rest ∧
      ∀ m ∈ rest, m.desc ∉
        [NewExporter.max24hoursend, NewExporter.maxsendrate, NewExporter.sentlast24hours] := by
  obtain ⟨hcall, hq⟩ := hret
  obtain ⟨out, latest, h1, hsel⟩ := (quota_called_iff float64 algo NewExporter svc).1 hcall
  obtain ⟨rest, hrest, hdesc⟩ := sendAll_gauges_quota float64 svc.SigningRegion latest a b c
  refine ⟨rest, ?_, fun m hm => count_desc_not_quota m.desc (hdesc m hm)⟩
  rw [Collect_quota_ok float64 algo NewExporter svc out latest _ h1 hsel hq]
  exact hrest

/-- The slice a scrape leaves behind is a permutation of the fetched one. -/
theorem Collect_data_perm {F : Type} (float64 : Int → F) (algo : Nat → SortProg)
    (e : Exporter) (svc : Fetch F) (out : GetSendStatisticsOutput)
    (h : svc.GetSendStatistics = .ok out) :
    (Collect float64 algo e svc).data.Perm out.SendDataPoints := by
  have hperm : (selectLatest algo out.SendDataPoints).1.state.Data.Perm out.SendDataPoints := by
    rw [selectLatest_fst]
    exact (run_data_perm (algo out.SendDataPoints.length) { Data := out.SendDataPoints }).1
  cases hsel : (selectLatest algo out.SendDataPoints).2 with
  | error p =>
    rw [Collect_select_error float64 algo e svc out p h hsel]
    exact hperm
  | ok latest =>
    cases hq : svc.GetSendQuota with
    | error err =>
      rw [Collect_quota_error float64 algo e svc out latest err h hsel hq]
      exact hperm
    | ok q =>
      rw [Collect_quota_ok float64 algo e svc out latest q h hsel hq]
      exact hperm

/-- What a scrape sends and how it ends depend on the fetched series only through
the point taken as latest. -/
theorem Collect_depends_on_latest {F : Type} (float64 : Int → F) (algo : Nat → SortProg)
    (e : Exporter) (svc svc' : Fetch F) (out out' : GetSendStatisticsOutput)
    (latest : Option SendDataPoint)
    (h : svc.GetSendStatistics = .ok out) (h' : svc'.GetSendStatistics = .ok out')
    (hsel : (selectLatest algo out.SendDataPoints).2 = .ok latest)
    (hsel' : (selectLatest algo out'.SendDataPoints).2 = .ok latest)
    (hregion : svc'.SigningRegion = svc.SigningRegion)
    (hquota : svc'.GetSendQuota = svc.GetSendQuota) :
    (Collect float64 algo e svc').emitted = (Collect float64 algo e svc).emitted ∧
    (Collect float64 algo e svc').outcome = (Collect float64 algo e svc).outcome := by
  cases hq : svc.GetSendQuota with
  | error err =>
    rw [Collect_quota_error float64 algo e svc out latest err h hsel hq,
      Collect_quota_error float64 algo e svc' out' latest err h' hsel' (hquota.trans hq),
      hregion]
    exact ⟨rfl, rfl⟩
  | ok q =>
    rw [Collect_quota_ok float64 algo e svc out latest q h hsel hq,
      Collect_quota_ok float64 algo e svc' out' latest q h' hsel' (hquota.trans hq),
      hregion]
    exact ⟨rfl, rfl⟩

/-! ## The claims -/

/-- C1: for every non-empty sequence of send data points, each with a timestamp,
the point `Collect` takes as latest (sort with `sortedDataPoint.Less`, then the
last element) is a point of the sequence whose timestamp is greater than or equal
to the timestamp of every element; so when several points share the greatest
timestamp it is one of them. -/
theorem C1_latest_has_greatest_timestamp (algo : Nat → SortProg) (hs : SortContract algo)
    (points : List (Option SendDataPoint)) (hne : points ≠ [])
    (hts : ∀ p ∈ points, (timestampOf p).isSome) :
    ∃ latest t, (selectLatest algo points).2 = .ok latest ∧ latest ∈ points ∧
      timestampOf latest = some t ∧
      ∀ q ∈ points, ∀ tq, timestampOf q = some tq → tq ≤ t :=
  latest_timestamp_max algo hs points hne hts

/-- C1 at the series of the specification, sorted by `insertionSort`. -/
theorem C1_witness :
    ∃ latest t, (selectLatest insertionSort sampleSeries).2 = .ok latest ∧
      latest ∈ sampleSeries ∧ timestampOf latest = some t ∧
      ∀ q ∈ sampleSeries, ∀ tq, timestampOf q = some tq → tq ≤ t :=
  C1_latest_has_greatest_timestamp insertionSort insertionSort_contract sampleSeries
    (by decide) (by decide)

/-- C2 as stated fails.  In the first fetch both remote calls are made and
succeed and the series is non-empty, yet `Collect` sends three values only and
then panics on the absent `Bounces` field of the point it selected.  In the
second the same holds with every data point complete: `Collect` sends one value
and panics on the absent `MaxSendRate` field of the quota output. -/
theorem C2_counterexample :
    (statisticsReturned fetchWithoutBounces
        (Collect exactFloat64 insertionSort NewExporter fetchWithoutBounces)
        fetchWithoutBounces.GetSendStatistics ∧
      quotaReturned fetchWithoutBounces
        (Collect exactFloat64 insertionSort NewExporter fetchWithoutBounces) (.ok sampleQuota) ∧
      (∃ out, fetchWithoutBounces.GetSendStatistics = .ok out ∧
        out.SendDataPoints.length = 1) ∧
      (Collect exactFloat64 insertionSort NewExporter fetchWithoutBounces).emitted.length = 3 ∧
      (Collect exactFloat64 insertionSort NewExporter fetchWithoutBounces).outcome =
        .panicked .nilDereference) ∧
    (statisticsReturned fetchWithoutMaxSendRate
        (Collect exactFloat64 insertionSort NewExporter fetchWithoutMaxSendRate)
        (.ok { SendDataPoints := sampleSeries }) ∧
      quotaReturned fetchWithoutMaxSendRate
        (Collect exactFloat64 insertionSort NewExporter fetchWithoutMaxSendRate)
        fetchWithoutMaxSendRate.GetSendQuota ∧
      (Collect exactFloat64 insertionSort NewExporter fetchWithoutMaxSendRate).emitted.length =
        1 ∧
      (Collect exactFloat64 insertionSort NewExporter fetchWithoutMaxSendRate).outcome =
        .panicked .nilDereference) :=
  ⟨⟨⟨by decide, rfl⟩, ⟨by decide, rfl⟩, ⟨_, rfl, rfl⟩, by decide, by decide⟩,
    ⟨⟨by decide, rfl⟩, ⟨by decide, rfl⟩, by decide, by decide⟩⟩

/-- C2, amended: for every fetch in which both remote calls are made and
succeed, the series is non-empty, the point `Collect` takes as latest is present
with its four counts and the three quota fields are present, `Collect` sends
exactly seven values and returns; the values are built, in this order, on the
descriptors max24hoursend, maxsendrate, sentlast24hours, Bounces, Complaints,
DeliveryAttempts, Rejects of the exporter, each is a gauge and each carries the
one label value that is the region of the fetch.  The seven values sent are the
three quota fields and the four counts of the point taken as latest. -/
theorem C2_seven_gauges {F : Type} (float64 : Int → F) (algo : Nat → SortProg)
    (svc : Fetch F) (out : GetSendStatisticsOutput) (q : GetSendQuotaOutput F)
    (h1 : statisticsReturned svc (Collect float64 algo NewExporter svc) (.ok out))
    (h2 : quotaReturned svc (Collect float64 algo NewExporter svc) (.ok q))
    (_hne : out.SendDataPoints ≠ [])
    (hcounts : ∀ latest, (selectLatest algo out.SendDataPoints).2 = .ok latest →
      hasCounts latest)
    (hq : quotaPresent q) :
    (Collect float64 algo NewExporter svc).calls = [.GetSendStatistics, .GetSendQuota] ∧
    (Collect float64 algo NewExporter svc).outcome = .returned ∧
    (Collect float64 algo NewExporter svc).emitted.length = 7 ∧
    (Collect float64 algo NewExporter svc).emitted.map (·.desc) =
      [NewExporter.max24hoursend, NewExporter.maxsendrate, NewExporter.sentlast24hours,
       NewExporter.Bounces, NewExporter.Complaints, NewExporter.DeliveryAttempts,
       NewExporter.Rejects] ∧
    (Collect float64 algo NewExporter svc).emitted.map (·.desc.fqName) =
      ["ses_max24hoursend", "ses_maxsendrate", "ses_sentlast24hours", "ses_Bounces",
       "ses_Complaints", "ses_DeliveryAttempts", "ses_Rejects"] ∧
    (∀ m ∈ (Collect float64 algo NewExporter svc).emitted,
      m.valType = .GaugeValue ∧ m.labelValues = [svc.SigningRegion]) ∧
    ∃ (d : SendDataPoint) (a b c : F) (n1 n2 n3 n4 : Int),
      (selectLatest algo out.SendDataPoints).2 = .ok (some d) ∧
      some d ∈ out.SendDataPoints ∧
      q = { Max24HourSend := some a, MaxSendRate := some b, SentLast24Hours := some c } ∧
      d.Bounces = some n1 ∧ d.Complaints = some n2 ∧ d.DeliveryAttempts = some n3 ∧
      d.Rejects = some n4 ∧
      (Collect float64 algo NewExporter svc).emitted =
        [gauge NewExporter.max24hoursend a svc.SigningRegion,
         gauge NewExporter.maxsendrate b svc.SigningRegion,
         gauge NewExporter.sentlast24hours c svc.SigningRegion,
         gauge NewExporter.Bounces (float64 n1) svc.SigningRegion,
         gauge NewExporter.Complaints (float64 n2) svc.SigningRegion,
         gauge NewExporter.DeliveryAttempts (float64 n3) svc.SigningRegion,
         gauge NewExporter.Rejects (float64 n4) svc.SigningRegion] := by
  obtain ⟨latest, hsel⟩ := selected_of_returned float64 algo NewExporter svc out q h1 h2
  obtain ⟨d, a, b, c, n1, n2, n3, n4, rfl, hqe, hn1, hn2, hn3, hn4, hem, hout, hcalls⟩ :=
    Collect_selected float64 algo svc out q latest h1.2 h2.2 hsel (hcounts latest hsel) hq
  have hmem := (selected_mem algo out.SendDataPoints (some d) hsel).2
  refine ⟨hcalls, hout, by rw [hem]; rfl, by rw [hem]; rfl, by rw [hem]; exact describe_names,
    ?_, ⟨d, a, b, c, n1, n2, n3, n4, hsel, hmem, hqe, hn1, hn2, hn3, hn4, hem⟩⟩
  intro m hm
  rw [hem] at hm
  simp only [List.mem_cons, List.mem_singleton, List.not_mem_nil, or_false] at hm
  rcases hm with rfl | rfl | rfl | rfl | rfl | rfl | rfl <;> exact ⟨rfl, rfl⟩

/-- C2 amended at a series whose older point has none of its counts: the seven
gauges are sent, with the quota snapshot and the counts of the point at 10:05
of the specification. -/
theorem C2_witness :
    (Collect exactFloat64 insertionSort NewExporter fetchOlderPointWithoutCounts).calls =
      [.GetSendStatistics, .GetSendQuota] ∧
    (Collect exactFloat64 insertionSort NewExporter fetchOlderPointWithoutCounts).outcome =
      .returned ∧
    (Collect exactFloat64 insertionSort NewExporter fetchOlderPointWithoutCounts).emitted.length =
      7 ∧
    (Collect exactFloat64 insertionSort NewExporter fetchOlderPointWithoutCounts).emitted.map
        (·.desc.fqName) =
      ["ses_max24hoursend", "ses_maxsendrate", "ses_sentlast24hours", "ses_Bounces",
       "ses_Complaints", "ses_DeliveryAttempts", "ses_Rejects"] :=
  have h := C2_seven_gauges exactFloat64 insertionSort fetchOlderPointWithoutCounts
    { SendDataPoints := [some { Timestamp := some 600, Bounces := none, Complaints := none,
                                DeliveryAttempts := none, Rejects := none },
                         point 605 5 2 100 0] }
    sampleQuota ⟨by decide, rfl⟩ ⟨by decide, rfl⟩ (by decide)
    (fun latest hsel => by
      have hl : Except.ok (point 605 5 2 100 0) = Except.ok (ε := Panic) latest := hsel
      injection hl with hl
      rw [← hl]
      decide)
    (by decide)
  ⟨h.1, h.2.1, h.2.2.1, h.2.2.2.2.1⟩

/-- C3 as stated fails.  In the first fetch both remote calls are made and
succeed and the series is non-empty, yet `Collect` sends the `Bounces` value
only and panics on the absent `Complaints` field of the point it selected, so no
value is sent for Complaints, DeliveryAttempts or Rejects.  In the second the
same holds with every data point complete: `Collect` panics on the absent
`SentLast24Hours` field of the quota output before any count is sent. -/
theorem C3_counterexample :
    (statisticsReturned fetchWithoutComplaints
        (Collect exactFloat64 insertionSort NewExporter fetchWithoutComplaints)
        fetchWithoutComplaints.GetSendStatistics ∧
      quotaReturned fetchWithoutComplaints
        (Collect exactFloat64 insertionSort NewExporter fetchWithoutComplaints)
        (.ok sampleQuota) ∧
      (∃ out, fetchWithoutComplaints.GetSendStatistics = .ok out ∧
        out.SendDataPoints.length = 2) ∧
      (Collect exactFloat64 insertionSort NewExporter fetchWithoutComplaints).emitted.map
          (·.desc) =
        [NewExporter.max24hoursend, NewExporter.maxsendrate, NewExporter.sentlast24hours,
         NewExporter.Bounces] ∧
      (Collect exactFloat64 insertionSort NewExporter fetchWithoutComplaints).outcome =
        .panicked .nilDereference) ∧
    (statisticsReturned fetchWithoutSentLast24Hours
        (Collect exactFloat64 insertionSort NewExporter fetchWithoutSentLast24Hours)
        (.ok { SendDataPoints := sampleSeries }) ∧
      quotaReturned fetchWithoutSentLast24Hours
        (Collect exactFloat64 insertionSort NewExporter fetchWithoutSentLast24Hours)
        fetchWithoutSentLast24Hours.GetSendQuota ∧
      (Collect exactFloat64 insertionSort NewExporter fetchWithoutSentLast24Hours).emitted.map
          (·.desc) =
        [NewExporter.max24hoursend, NewExporter.maxsendrate] ∧
      (Collect exactFloat64 insertionSort NewExporter fetchWithoutSentLast24Hours).outcome =
        .panicked .nilDereference) :=
  ⟨⟨⟨by decide, rfl⟩, ⟨by decide, rfl⟩, ⟨_, rfl, rfl⟩, by decide, by decide⟩,
    ⟨⟨by decide, rfl⟩, ⟨by decide, rfl⟩, by decide, by decide⟩⟩

/-- C3, amended: for every fetch in which both remote calls are made and
succeed, the series is non-empty, the point `Collect` takes as latest is present
with its four counts and the three quota fields are present, the values sent for
Bounces, Complaints, DeliveryAttempts and Rejects are the four counts, converted
by `float64`, of one point of the series, the one taken as latest, and no point
of the series has a later timestamp than this point; for the series of a point
at 10:00 and the point at 10:05 with counts 5, 2, 100, 0, in either order, they
are `float64` of 5, 2, 100 and 0. -/
theorem C3_counts_of_latest_point {F : Type} (float64 : Int → F) (algo : Nat → SortProg)
    (hs : SortContract algo) (svc : Fetch F) (out : GetSendStatisticsOutput)
    (q : GetSendQuotaOutput F)
    (h1 : statisticsReturned svc (Collect float64 algo NewExporter svc) (.ok out))
    (h2 : quotaReturned svc (Collect float64 algo NewExporter svc) (.ok q))
    (_hne : out.SendDataPoints ≠ [])
    (hcounts : ∀ latest, (selectLatest algo out.SendDataPoints).2 = .ok latest →
      hasCounts latest)
    (hq : quotaPresent q) :
    (∃ (d : SendDataPoint) (n1 n2 n3 n4 : Int),
      some d ∈ out.SendDataPoints ∧
      (selectLatest algo out.SendDataPoints).2 = .ok (some d) ∧
      (∀ p ∈ out.SendDataPoints, ∀ tp, timestampOf p = some tp →
        ∃ t, d.Timestamp = some t ∧ tp ≤ t) ∧
      d.Bounces = some n1 ∧ d.Complaints = some n2 ∧ d.DeliveryAttempts = some n3 ∧
      d.Rejects = some n4 ∧
      (Collect float64 algo NewExporter svc).emitted.drop 3 =
        [gauge NewExporter.Bounces (float64 n1) svc.SigningRegion,
         gauge NewExporter.Complaints (float64 n2) svc.SigningRegion,
         gauge NewExporter.DeliveryAttempts (float64 n3) svc.SigningRegion,
         gauge NewExporter.Rejects (float64 n4) svc.SigningRegion]) ∧
    ∀ (b1 c1 d1 r1 : Int),
      (out.SendDataPoints = [point 600 b1 c1 d1 r1, point 605 5 2 100 0] ∨
        out.SendDataPoints = [point 605 5 2 100 0, point 600 b1 c1 d1 r1]) →
      (Collect float64 algo NewExporter svc).emitted.drop 3 =
        [gauge NewExporter.Bounces (float64 5) svc.SigningRegion,
         gauge NewExporter.Complaints (float64 2) svc.SigningRegion,
         gauge NewExporter.DeliveryAttempts (float64 100) svc.SigningRegion,
         gauge NewExporter.Rejects (float64 0) svc.SigningRegion] := by
  obtain ⟨latest, hsel⟩ := selected_of_returned float64 algo NewExporter svc out q h1 h2
  obtain ⟨d, a, b, c, n1, n2, n3, n4, rfl, -, hn1, hn2, hn3, hn4, hem, -, -⟩ :=
    Collect_selected float64 algo svc out q latest h1.2 h2.2 hsel (hcounts latest hsel) hq
  have hmem := (selected_mem algo out.SendDataPoints (some d) hsel).2
  have hmax : ∀ p ∈ out.SendDataPoints, ∀ tp, timestampOf p = some tp →
      ∃ t, d.Timestamp = some t ∧ tp ≤ t := by
    intro p hp tp htp
    obtain ⟨t, ht, hle⟩ :=
      selected_timestamp_max algo hs out.SendDataPoints (some d) hsel p hp tp htp
    exact ⟨t, by simpa [timestampOf] using ht, hle⟩
  refine ⟨⟨d, n1, n2, n3, n4, hmem, hsel, hmax, hn1, hn2, hn3, hn4, by rw [hem]; rfl⟩, ?_⟩
  intro b1 c1 d1 r1 hseries
  obtain ⟨t, ht, h605⟩ := hmax (point 605 5 2 100 0)
    (by rcases hseries with h | h <;> rw [h] <;> simp) 605 rfl
  have hd : some d = point 605 5 2 100 0 := by
    have hcase : some d = point 600 b1 c1 d1 r1 ∨ some d = point 605 5 2 100 0 := by
      rcases hseries with h | h <;> rw [h] at hmem <;> simp at hmem <;> tauto
    rcases hcase with h | h
    · exfalso
      simp only [point, Option.some.injEq] at h
      rw [h] at ht
      simp only [Option.some.injEq] at ht
      omega
    · exact h
  simp only [point, Option.some.injEq] at hd
  subst hd
  simp only [Option.some.injEq] at hn1 hn2 hn3 hn4
  subst hn1 hn2 hn3 hn4
  rw [hem]
  rfl

/-- C3 amended at a series whose older point has none of its counts: the counts
of the point at 10:05 are sent. -/
theorem C3_witness :
    (Collect exactFloat64 insertionSort NewExporter fetchOlderPointWithoutCounts).emitted.drop
        3 =
      [gauge NewExporter.Bounces (exactFloat64 5) "eu-west-1",
       gauge NewExporter.Complaints (exactFloat64 2) "eu-west-1",
       gauge NewExporter.DeliveryAttempts (exactFloat64 100) "eu-west-1",
       gauge NewExporter.Rejects (exactFloat64 0) "eu-west-1"] :=
  have h := C3_counts_of_latest_point exactFloat64 insertionSort insertionSort_contract
    fetchOlderPointWithoutCounts
    { SendDataPoints := [some { Timestamp := some 600, Bounces := none, Complaints := none,
                                DeliveryAttempts := none, Rejects := none },
                         point 605 5 2 100 0] }
    sampleQuota ⟨by decide, rfl⟩ ⟨by decide, rfl⟩ (by decide)
    (fun latest hsel => by
      have hl : Except.ok (point 605 5 2 100 0) = Except.ok (ε := Panic) latest := hsel
      injection hl with hl
      rw [← hl]
      decide)
    (by decide)
  match h.1 with
  | ⟨d, n1, n2, n3, n4, _, hsel, _, hn1, hn2, hn3, hn4, hem⟩ => by
    have hl : Except.ok (point 605 5 2 100 0) = Except.ok (ε := Panic) (some d) := hsel
    injection hl with hl
    simp only [point, Option.some.injEq] at hl
    subst hl
    simp only [Option.some.injEq] at hn1 hn2 hn3 hn4
    subst hn1 hn2 hn3 hn4
    exact hem

/-- C4: for every quota snapshot of three numbers returned by the quota call of a
scrape, `Collect` sends exactly three quota-derived gauges, max24hoursend,
maxsendrate and sentlast24hours, whose values are those three numbers unchanged,
each labelled with the region; nothing else it sends is on one of these three
descriptors.  For the snapshot of 50000, 14 and 123 the values are 50000, 14
and 123. -/
theorem C4_quota_gauges_unchanged {F : Type} (float64 : Int → F) (algo : Nat → SortProg)
    (svc : Fetch F) (a b c : F)
    (hret : quotaReturned svc (Collect float64 algo NewExporter svc)
      (.ok { Max24HourSend := some a, MaxSendRate := some b, SentLast24Hours := some c })) :
    (∃ rest, (Collect float64 algo NewExporter svc).emitted =
        gauge NewExporter.max24hoursend a svc.SigningRegion ::
        gauge NewExporter.maxsendrate b svc.SigningRegion ::
        gauge NewExporter.sentlast24hours c svc.SigningRegion :: rest ∧
      ∀ m ∈ rest, m.desc ∉
        [NewExporter.max24hoursend, NewExporter.maxsendrate, NewExporter.sentlast24hours]) ∧
    ∀ (floatOf : Int → Rat) (sortAlgo : Nat → SortProg) (client : Fetch Rat),
      quotaReturned client (Collect floatOf sortAlgo NewExporter client) (.ok sampleQuota) →
      ((Collect floatOf sortAlgo NewExporter client).emitted.take 3).map (·.value) =
        [50000, 14, 123] ∧
      ((Collect floatOf sortAlgo NewExporter client).emitted.take 3).map (·.labelValues) =
        [[client.SigningRegion], [client.SigningRegion], [client.SigningRegion]] := by
  refine ⟨quota_gauges float64 algo svc a b c hret, ?_⟩
  intro floatOf sortAlgo client hclient
  obtain ⟨rest, hrest, -⟩ := quota_gauges floatOf sortAlgo client 50000 14 123 hclient
  rw [hrest]
  exact ⟨rfl, rfl⟩

/-- C4 at the quota snapshot and the series of the specification. -/
theorem C4_witness :
    ∃ rest, (Collect exactFloat64 insertionSort NewExporter (sampleFetch sampleSeries)).emitted =
        gauge NewExporter.max24hoursend 50000 "eu-west-1" ::
        gauge NewExporter.maxsendrate 14 "eu-west-1" ::
        gauge NewExporter.sentlast24hours 123 "eu-west-1" :: rest ∧
      ∀ m ∈ rest, m.desc ∉
        [NewExporter.max24hoursend, NewExporter.maxsendrate, NewExporter.sentlast24hours] :=
  (C4_quota_gauges_unchanged exactFloat64 insertionSort (sampleFetch sampleSeries) 50000 14 123
    ⟨by decide, rfl⟩).1

/-- C5: when the statistics call succeeds with an empty sequence of data points,
taking the latest point fails (the index `len - 1` is out of range) instead of
yielding a point, and `Collect` panics without sending any value, so no Bounces,
Complaints, DeliveryAttempts or Rejects gauge and no zero-valued substitute is
sent; the quota call is not made. -/
theorem C5_empty_series_sends_nothing {F : Type} (float64 : Int → F) (algo : Nat → SortProg)
    (e : Exporter) (svc : Fetch F) (out : GetSendStatisticsOutput)
    (h : svc.GetSendStatistics = .ok out) (hempty : out.SendDataPoints = []) :
    (selectLatest algo out.SendDataPoints).2 = .error .indexOutOfRange ∧
    (Collect float64 algo e svc).outcome = .panicked .indexOutOfRange ∧
    (Collect float64 algo e svc).emitted = [] ∧
    (Collect float64 algo e svc).calls = [.GetSendStatistics] := by
  have hsel : (selectLatest algo out.SendDataPoints).2 = .error .indexOutOfRange := by
    rw [hempty]; exact (selectLatest_nil algo).1
  rw [Collect_select_error float64 algo e svc out _ h hsel]
  exact ⟨hsel, rfl, rfl, rfl⟩

/-- C5 at a fetch with an empty series. -/
theorem C5_witness :
    (selectLatest insertionSort []).2 = .error .indexOutOfRange ∧
    (Collect exactFloat64 insertionSort NewExporter fetchEmptySeries).outcome =
      .panicked .indexOutOfRange ∧
    (Collect exactFloat64 insertionSort NewExporter fetchEmptySeries).emitted = [] ∧
    (Collect exactFloat64 insertionSort NewExporter fetchEmptySeries).calls =
      [.GetSendStatistics] :=
  C5_empty_series_sends_nothing exactFloat64 insertionSort NewExporter fetchEmptySeries
    { SendDataPoints := [] } rfl rfl

/-- C6: if a remote call of the scrape, get-send-statistics or get-send-quota,
returns an error, then whatever the error (structured or not, whatever its code)
`Collect` ends in `log.Fatalf` with the region and that error, and it has sent no
value; this holds in particular when the statistics call succeeded and the quota
call failed. -/
theorem C6_remote_error_is_fatal {F : Type} (float64 : Int → F) (algo : Nat → SortProg)
    (e : Exporter) (svc : Fetch F) (err : RemoteError)
    (h : statisticsReturned svc (Collect float64 algo e svc) (.error err) ∨
      quotaReturned svc (Collect float64 algo e svc) (.error err)) :
    (Collect float64 algo e svc).outcome = .fatal svc.SigningRegion err ∧
    (Collect float64 algo e svc).emitted = [] := by
  rcases h with ⟨-, hstat⟩ | ⟨hcall, hq⟩
  · rw [Collect_statistics_error float64 algo e svc err hstat, fatalOn_eq]
    exact ⟨rfl, rfl⟩
  · obtain ⟨out, latest, h1, hsel⟩ := (quota_called_iff float64 algo e svc).1 hcall
    rw [Collect_quota_error float64 algo e svc out latest err h1 hsel hq, fatalOn_eq]
    exact ⟨rfl, rfl⟩

/-- C6 at a fetch whose statistics call succeeds and whose quota call returns a
structured error. -/
theorem C6_witness :
    (Collect exactFloat64 insertionSort NewExporter fetchQuotaFails).outcome =
      .fatal "eu-west-1" (.awserr "Throttling" "Rate exceeded") ∧
    (Collect exactFloat64 insertionSort NewExporter fetchQuotaFails).emitted = [] :=
  C6_remote_error_is_fatal exactFloat64 insertionSort NewExporter fetchQuotaFails
    (.awserr "Throttling" "Rate exceeded") (Or.inr ⟨by decide, rfl⟩)

/-- C7: for the exporter built by `NewExporter`, `Describe` sends exactly seven
descriptors, in the order ses_max24hoursend, ses_maxsendrate, ses_sentlast24hours,
ses_Bounces, ses_Complaints, ses_DeliveryAttempts, ses_Rejects, each with the
single label name aws_region; `Describe` is a function of the exporter alone, and
the exporter is the same after any scrape, successful or failed, so the result is
the same before and after any scrape. -/
theorem C7_describe_seven_descriptors :
    (Describe NewExporter).length = 7 ∧
    (Describe NewExporter).map (·.fqName) =
      ["ses_max24hoursend", "ses_maxsendrate", "ses_sentlast24hours", "ses_Bounces",
       "ses_Complaints", "ses_DeliveryAttempts", "ses_Rejects"] ∧
    (∀ d ∈ Describe NewExporter, d.variableLabels = ["aws_region"]) ∧
    ∀ (F : Type) (float64 : Int → F) (algo : Nat → SortProg) (svc : Fetch F),
      Describe (Collect float64 algo NewExporter svc).exporter = Describe NewExporter := by
  refine ⟨rfl, describe_names, by decide, ?_⟩
  intro F float64 algo svc
  rw [Collect_exporter]

/-- C8: the in-place sort changes the fetched sequence at most by reordering it:
the sequence a scrape leaves is a permutation of the fetched one, whatever the
sorting program and however the scrape ends.  After the last element is taken
the sequence is not read again: two scrapes with the same region and quota
result whose sequences yield the same latest point send the same values and end
the same way. -/
theorem C8_sort_only_reorders {F : Type} (float64 : Int → F) (algo : Nat → SortProg)
    (e : Exporter) (svc : Fetch F) (out : GetSendStatisticsOutput)
    (h : svc.GetSendStatistics = .ok out) :
    (Collect float64 algo e svc).data.Perm out.SendDataPoints ∧
    ∀ (svc' : Fetch F) (out' : GetSendStatisticsOutput) (latest : Option SendDataPoint),
      svc'.GetSendStatistics = .ok out' →
      (selectLatest algo out.SendDataPoints).2 = .ok latest →
      (selectLatest algo out'.SendDataPoints).2 = .ok latest →
      svc'.SigningRegion = svc.SigningRegion →
      svc'.GetSendQuota = svc.GetSendQuota →
      (Collect float64 algo e svc').emitted = (Collect float64 algo e svc).emitted ∧
      (Collect float64 algo e svc').outcome = (Collect float64 algo e svc).outcome :=
  ⟨Collect_data_perm float64 algo e svc out h,
    fun svc' out' latest h' hsel hsel' hregion hquota =>
      Collect_depends_on_latest float64 algo e svc svc' out out' latest h h' hsel hsel'
        hregion hquota⟩

/-- C8 at the series of the specification, against another series with the same
latest point. -/
theorem C8_witness :
    (Collect exactFloat64 insertionSort NewExporter (sampleFetch sampleSeries)).data.Perm
      sampleSeries ∧
    (Collect exactFloat64 insertionSort NewExporter fetchOtherSeries).emitted =
      (Collect exactFloat64 insertionSort NewExporter (sampleFetch sampleSeries)).emitted :=
  have h := C8_sort_only_reorders exactFloat64 insertionSort NewExporter
    (sampleFetch sampleSeries) { SendDataPoints := sampleSeries } rfl
  ⟨h.1, (h.2 fetchOtherSeries _ (point 605 5 2 100 0) rfl rfl rfl rfl rfl).1⟩

/-- C9: `Collect` keeps no state across scrapes: it leaves the exporter as it
found it, and what it sends is a function of the exporter and of the current
fetch result (region, quota result, data points).  So of two consecutive scrapes
with fetch results `A` then `B`, the second observes exactly what a first scrape
with `B` observes, and two scrapes with equal fetch results send equal values. -/
theorem C9_no_state_across_scrapes {F : Type} (float64 : Int → F) (algo : Nat → SortProg)
    (e : Exporter) (A B : Fetch F) :
    (Collect float64 algo e A).exporter = e ∧
    ((Collect float64 algo e A).outcome = .returned →
      serve float64 algo e [A, B] = [Collect float64 algo e A, Collect float64 algo e B]) ∧
    ((Collect float64 algo e A).outcome = .returned →
      (serve float64 algo e [A, A]).map (·.emitted) =
        [(Collect float64 algo e A).emitted, (Collect float64 algo e A).emitted]) := by
  have hserve : ∀ C : Fetch F, (Collect float64 algo e A).outcome = .returned →
      serve float64 algo e [A, C] = [Collect float64 algo e A, Collect float64 algo e C] := by
    intro C hA
    have hC : serve float64 algo e [C] = [Collect float64 algo e C] := by
      simp only [serve]
      cases (Collect float64 algo e C).outcome <;> rfl
    rw [serve]
    simp only [hA, Collect_exporter]
    rw [hC]
  exact ⟨Collect_exporter float64 algo e A, hserve B, fun hA => by rw [hserve A hA]; rfl⟩

/-- C10: when both remote calls succeed, the series is non-empty, every data
point has its timestamp and its four counts and the three quota fields are
present, `Collect` reaches no failure: it returns after sending the seven gauges
(the three quota fields, then the four counts, converted by `float64`, of a point
of the series whose timestamp no other exceeds, each on its descriptor with the
region), every index `sort.Sort` passed to `Less` and `Swap` is within the bounds
of the slice, and so is the index `len - 1` of the last element.  Conversely, in
a series of two or more points a point without timestamp makes the comparison
fail: the last call of the sort is a `Less` that dereferences nil, and `Collect`
panics without sending anything. -/
theorem C10_safe_when_fields_present {F : Type} (float64 : Int → F) (algo : Nat → SortProg)
    (hs : SortContract algo) (svc : Fetch F) (out : GetSendStatisticsOutput)
    (q : GetSendQuotaOutput F) (h1 : svc.GetSendStatistics = .ok out)
    (h2 : svc.GetSendQuota = .ok q) (hne : out.SendDataPoints ≠ [])
    (hts : ∀ p ∈ out.SendDataPoints, (timestampOf p).isSome)
    (hcounts : ∀ p ∈ out.SendDataPoints, hasCounts p) (hq : quotaPresent q)
    (svc' : Fetch F) (out' : GetSendStatisticsOutput) (p : Option SendDataPoint)
    (h1' : svc'.GetSendStatistics = .ok out') (hlen : 2 ≤ out'.SendDataPoints.length)
    (hp : p ∈ out'.SendDataPoints) (hnone : timestampOf p = none) :
    ((Collect float64 algo NewExporter svc).outcome = .returned ∧
      (Collect float64 algo NewExporter svc).emitted.length = 7 ∧
      (∀ c ∈ (Collect float64 algo NewExporter svc).sortCalls,
        c.inBounds out.SendDataPoints.length) ∧
      (Collect float64 algo NewExporter svc).data.length = out.SendDataPoints.length ∧
      (∃ latest, index (Collect float64 algo NewExporter svc).data
        (((Collect float64 algo NewExporter svc).data.length : Int) - 1) = .ok latest) ∧
      ∃ (d : SendDataPoint) (t : Int) (a b c : F) (n1 n2 n3 n4 : Int),
        some d ∈ out.SendDataPoints ∧ d.Timestamp = some t ∧
        (∀ x ∈ out.SendDataPoints, ∀ tx, timestampOf x = some tx → tx ≤ t) ∧
        q = { Max24HourSend := some a, MaxSendRate := some b, SentLast24Hours := some c } ∧
        d.Bounces = some n1 ∧ d.Complaints = some n2 ∧ d.DeliveryAttempts = some n3 ∧
        d.Rejects = some n4 ∧
        (Collect float64 algo NewExporter svc).emitted =
          [gauge NewExporter.max24hoursend a svc.SigningRegion,
           gauge NewExporter.maxsendrate b svc.SigningRegion,
           gauge NewExporter.sentlast24hours c svc.SigningRegion,
           gauge NewExporter.Bounces (float64 n1) svc.SigningRegion,
           gauge NewExporter.Complaints (float64 n2) svc.SigningRegion,
           gauge NewExporter.DeliveryAttempts (float64 n3) svc.SigningRegion,
           gauge NewExporter.Rejects (float64 n4) svc.SigningRegion]) ∧
    ((Collect float64 algo NewExporter svc').outcome = .panicked .nilDereference ∧
      (Collect float64 algo NewExporter svc').emitted = [] ∧
      ∃ i j, (Collect float64 algo NewExporter svc').sortCalls.getLast? = some (.less i j) ∧
        sortedDataPoint.Less { Data := (Collect float64 algo NewExporter svc').data } i j =
          .error .nilDereference) := by
  constructor
  · obtain ⟨d, t, a, b, c, n1, n2, n3, n4, hmem, ht, hmax, hqe, hn1, hn2, hn3, hn4, hem, hout,
      -, hperm, hcalls⟩ := Collect_complete float64 algo hs svc out q h1 h2 hne hts hcounts hq
    have hlen' := hperm.length_eq
    have hpos : 0 < out.SendDataPoints.length := List.length_pos.2 hne
    have hidx := index_natCast (Collect float64 algo NewExporter svc).data
      ((Collect float64 algo NewExporter svc).data.length - 1) (by omega)
    have hcast : (((Collect float64 algo NewExporter svc).data.length : Int) - 1) =
        (((Collect float64 algo NewExporter svc).data.length - 1 : Nat) : Int) := by omega
    rw [hcast]
    exact ⟨hout, by rw [hem]; rfl, hcalls, hlen', ⟨_, hidx⟩,
      ⟨d, t, a, b, c, n1, n2, n3, n4, hmem, ht, hmax, hqe, hn1, hn2, hn3, hn4, hem⟩⟩
  · have hfail := sort_fails_without_timestamp algo hs out'.SendDataPoints hlen p hp hnone
    have hsel := selectLatest_snd_of_some hfail
    obtain ⟨i, j, hlast, hless⟩ := nilDereference_in_Less (algo out'.SendDataPoints.length)
      { Data := out'.SendDataPoints } hfail
    rw [Collect_select_error float64 algo NewExporter svc' out' _ h1' hsel]
    refine ⟨rfl, rfl, i, j, ?_, ?_⟩
    · simp only [selectLatest_fst]
      exact hlast
    · simp only [selectLatest_fst]
      exact hless

/-- C10 at the series and quota snapshot of the specification, where the seven
gauges sent are those of the snapshot and of the point at 10:05, and at a series
of two points one of which has no timestamp. -/
theorem C10_witness :
    ((Collect exactFloat64 insertionSort NewExporter (sampleFetch sampleSeries)).outcome =
        .returned ∧
      (Collect exactFloat64 insertionSort NewExporter (sampleFetch sampleSeries)).emitted.map
          (fun m => (m.desc.fqName, m.value)) =
        [("ses_max24hoursend", 50000), ("ses_maxsendrate", 14), ("ses_sentlast24hours", 123),
         ("ses_Bounces", 5), ("ses_Complaints", 2), ("ses_DeliveryAttempts", 100),
         ("ses_Rejects", 0)]) ∧
    ((Collect exactFloat64 insertionSort NewExporter fetchWithoutTimestamp).outcome =
        .panicked .nilDereference ∧
      (Collect exactFloat64 insertionSort NewExporter fetchWithoutTimestamp).emitted = []) :=
  have h := C10_safe_when_fields_present exactFloat64 insertionSort insertionSort_contract
    (sampleFetch sampleSeries) { SendDataPoints := sampleSeries } sampleQuota rfl rfl
    (by decide) (by decide) (by decide) (by decide)
    fetchWithoutTimestamp _
    (some { Timestamp := none, Bounces := some 5, Complaints := some 2,
            DeliveryAttempts := some 100, Rejects := some 0 })
    rfl (by decide) (by decide) rfl
  ⟨⟨h.1.1, by
      obtain ⟨d, t, a, b, c, n1, n2, n3, n4, hmem, ht, hmax, hqe, hn1, hn2, hn3, hn4, hem⟩ :=
        h.1.2.2.2.2.2
      have h605 : (605 : Int) ≤ t := hmax (point 605 5 2 100 0) (by decide) 605 rfl
      have hd : d = { Timestamp := some 605, Bounces := some 5, Complaints := some 2,
                      DeliveryAttempts := some 100, Rejects := some 0 } := by
        simp only [sampleFetch, sampleSeries, point, List.mem_cons, Option.some.injEq,
          List.mem_singleton, List.not_mem_nil, or_false] at hmem
        rcases hmem with h | h
        · rw [h] at ht
          simp only [Option.some.injEq] at ht
          omega
        · exact h
      subst hd
      simp only [Option.some.injEq] at hn1 hn2 hn3 hn4
      subst hn1 hn2 hn3 hn4
      simp only [sampleQuota, GetSendQuotaOutput.mk.injEq, Option.some.injEq] at hqe
      obtain ⟨rfl, rfl, rfl⟩ := hqe
      rw [hem]
      rfl⟩,
    ⟨h.2.1, h.2.2.1⟩⟩

end Collector
